import Mathlib

/-!
Verification of the OpenSpace conversation orchestrator core.

This file is a shallow embedding, in Lean 4, of the Go code of the
OpenSpace repository (service.go, tool_calling.go, tool_protocol.go and
the custom-LLM service file).  Pure Go functions become Lean functions;
stateful code (the in-memory session map, the cancel registry, the todo
store) becomes explicit state passing; effectful calls (HTTP, the file
system, the clock, command execution) become oracle parameters that
supply the outcome of each effect.  Go maps are modelled as association
lists with insert-or-replace update; Go `map[string]interface{}` session
messages are modelled as typed records carrying exactly the fields the
code reads and writes.  Machine integers (millisecond timestamps, token
counts, HTTP status codes) are modelled as `Nat`: the code only ever
produces non-negative values for them and never overflows an int64 in
any behaviour relevant here.  Strings are Lean `String`s; the character
scanners of the source are embedded as structurally recursive functions
over `List Char` so that every definition is executable and
kernel-reducible.
-/

namespace OpenSpace

/-! ### Association-list primitives (Go map operations) -/

/-- Lookup in an association list keyed by strings (Go `m[k]`, comma-ok form). -/
def lookupKey {α : Type} : List (String × α) → String → Option α
  | [], _ => none
  | (k, v) :: rest, key => if k = key then some v else lookupKey rest key

/-- Insert-or-replace (Go `m[k] = v`). -/
def upsert {α : Type} : List (String × α) → String → α → List (String × α)
  | [], k, v => [(k, v)]
  | (k', v') :: rest, k, v =>
      if k' = k then (k, v) :: rest else (k', v') :: upsert rest k v

/-- Key removal (Go `delete(m, k)`; a Go map never holds a key twice, so
removing every binding of the key is the faithful model). -/
def eraseKey {α : Type} (l : List (String × α)) (k : String) : List (String × α) :=
  l.filter (fun p => decide (p.1 ≠ k))

theorem lookupKey_upsert_self {α : Type} (l : List (String × α)) (k : String) (v : α) :
    lookupKey (upsert l k v) k = some v := by
  induction l with
  | nil => simp [upsert, lookupKey]
  | cons p rest ih =>
      obtain ⟨k', v'⟩ := p
      by_cases h : k' = k
      · simp [upsert, h, lookupKey]
      · simp [upsert, h, lookupKey, ih]

theorem lookupKey_upsert_other {α : Type} (l : List (String × α)) (k k' : String) (v : α)
    (h : k' ≠ k) : lookupKey (upsert l k v) k' = lookupKey l k' := by
  have hkk : k ≠ k' := fun hc => h hc.symm
  induction l with
  | nil => simp [upsert, lookupKey, hkk]
  | cons p rest ih =>
      obtain ⟨k0, v0⟩ := p
      by_cases h0 : k0 = k
      · subst h0
        simp [upsert, lookupKey, hkk]
      · simp only [upsert, if_neg h0, lookupKey]
        by_cases h1 : k0 = k'
        · simp [h1]
        · simp [h1, ih]

theorem lookupKey_eraseKey_self {α : Type} (l : List (String × α)) (k : String) :
    lookupKey (eraseKey l k) k = none := by
  induction l with
  | nil => simp [eraseKey, lookupKey]
  | cons p rest ih =>
      obtain ⟨k0, v0⟩ := p
      by_cases h : k0 = k
      · simpa [eraseKey, h, List.filter] using ih
      · simpa [eraseKey, lookupKey, h, List.filter] using ih

/-! ### Decimal rendering of `Nat` (the logic behind `fmt.Sprintf("%d", n)`).

`Nat.repr` in Lean core computes the same decimal string that Go's
`fmt.Sprintf("session_%d", now)` produces.  We prove it injective, which
the uniqueness arguments about session ids need. -/

/-- Most-significant-first decimal digit list of a natural number. -/
def repD (n : Nat) : List Char :=
  if _h : n < 10 then [Nat.digitChar n]
  else repD (n / 10) ++ [Nat.digitChar (n % 10)]
decreasing_by exact Nat.div_lt_self (by omega) (by omega)

theorem toDigitsCore_eq_repD :
    ∀ (fuel n : Nat) (ds : List Char), 1 ≤ fuel → n < 10 ^ fuel →
      Nat.toDigitsCore 10 fuel n ds = repD n ++ ds := by
  intro fuel
  induction fuel with
  | zero => intro n ds h1 _; omega
  | succ f ih =>
      intro n ds _ h
      by_cases h10 : n / 10 = 0
      · have hn : n < 10 := by omega
        rw [repD]
        simp [Nat.toDigitsCore, h10, hn, Nat.mod_eq_of_lt hn]
      · have hge : ¬ n < 10 := by omega
        have hf1 : 1 ≤ f := by
          by_contra hc
          have hf0 : f = 0 := by omega
          subst hf0
          simp at h
          omega
        have hdiv : n / 10 < 10 ^ f := by
          have hpow : (10 : Nat) ^ (f + 1) = 10 ^ f * 10 := pow_succ 10 f
          rw [hpow] at h
          exact (Nat.div_lt_iff_lt_mul (by omega : 0 < 10)).mpr h
        rw [repD]
        simp only [hge, dite_false]
        simp only [Nat.toDigitsCore, h10, if_false]
        rw [ih (n / 10) _ hf1 hdiv]
        simp

/-- Decode a most-significant-first decimal digit list. -/
def decodeDigits (l : List Char) : Nat :=
  l.foldl (fun a c => 10 * a + (c.toNat - 48)) 0

theorem digitChar_decode (m : Nat) (h : m < 10) : (Nat.digitChar m).toNat - 48 = m := by
  interval_cases m <;> decide

theorem decodeDigits_repD (n : Nat) : decodeDigits (repD n) = n := by
  induction n using Nat.strong_induction_on with
  | _ n ih =>
      by_cases h : n < 10
      · rw [repD]
        simp only [h, dite_true]
        simp [decodeDigits, digitChar_decode n h]
      · rw [repD]
        simp only [h, dite_false]
        have hrec := ih (n / 10) (Nat.div_lt_self (by omega) (by omega))
        unfold decodeDigits at hrec ⊢
        rw [List.foldl_append, hrec]
        simp only [List.foldl]
        rw [digitChar_decode (n % 10) (Nat.mod_lt n (by omega))]
        omega

theorem natRepr_data (n : Nat) : (Nat.repr n).data = repD n := by
  show (Nat.toDigits 10 n).asString.data = repD n
  have h : n < 10 ^ (n + 1) := by
    calc n < n + 1 := by omega
    _ ≤ 10 ^ (n + 1) := Nat.le_of_lt (Nat.lt_pow_self (by omega) _)
  rw [Nat.toDigits, toDigitsCore_eq_repD (n + 1) n [] (by omega) h]
  simp [List.asString]

theorem natRepr_injective {a b : Nat} (h : Nat.repr a = Nat.repr b) : a = b := by
  have hd : repD a = repD b := by
    rw [← natRepr_data, ← natRepr_data, h]
  calc a = decodeDigits (repD a) := (decodeDigits_repD a).symm
  _ = decodeDigits (repD b) := by rw [hd]
  _ = b := decodeDigits_repD b

/-! ### C1 — the cancel registry (service.go `SendMessage` begin/defer blocks,
`CancelSession`).

`Service.cancelFuncs` maps a session id to the `context.CancelFunc` of the
in-flight generation.  Handles are modelled as numbers; calling a cancel
function is modelled by adding its number to `fired`. -/

structure CancelRegistry where
  handles : List (String × Nat)
  fired : List Nat
deriving DecidableEq

/-- `SendMessage` lines 333–341: cancel the previous handle if present,
then install the new one. -/
def CancelRegistry.beginSend (r : CancelRegistry) (sid : String) (h : Nat) : CancelRegistry :=
  match lookupKey r.handles sid with
  | some prev => { handles := upsert r.handles sid h, fired := prev :: r.fired }
  | none => { handles := upsert r.handles sid h, fired := r.fired }

/-- `SendMessage` lines 344–355 (the deferred cleanup): if any handle is
registered for the session, delete it and call it — with no check that it
is still the one this call installed ("For now, just delete"). -/
def CancelRegistry.endCleanup (r : CancelRegistry) (sid : String) : CancelRegistry :=
  match lookupKey r.handles sid with
  | some cur => { handles := eraseKey r.handles sid, fired := cur :: r.fired }
  | none => r

/-! ### Data model (service.go, tool_calling.go, the custom-LLM file) -/

/-- A decoded JSON argument value (`interface{}` in the Go tool-call arg
maps): a string, a boolean, JSON null, or anything else.  The tool
handlers only ever distinguish these four shapes. -/
inductive AnyVal
  | str (s : String)
  | boolv (b : Bool)
  | null
  | other
deriving DecidableEq

/-- `ToolCall` (tool_calling.go). -/
structure ToolCallX where
  id : String := ""
  name : String
  args : List (String × AnyVal) := []
deriving DecidableEq

/-- `ToolResult` (tool_calling.go). -/
structure ToolResult where
  toolCallId : String
  name : String
  content : String
  isError : Bool
deriving DecidableEq

/-- An API-shaped chat record (`map[string]interface{}` with `role` /
`content`, plus the `tool_call_id` and `tool_calls` fields the native
dialect attaches). -/
structure ChatMsg where
  role : String
  content : String
  toolCallId : Option String := none
  toolCallsRaw : List ToolCallX := []
deriving DecidableEq

/-- The provider response of one turn, as decoded by the source from the
HTTP body.  The JSON transport is abstracted into this oracle record:
`body` is the raw body text, `text` is what the source extracts
(`content[0].text` for Anthropic, `choices[0].message.content`
otherwise) and `toolCalls` is what `parseOpenAIToolCalls` yields from
`choices[0].message` (consulted only in native tool mode). -/
structure TurnResponse where
  status : Nat
  body : String
  text : String
  toolCalls : List ToolCallX := []
deriving DecidableEq

/-- One entry of the `rawTurns` audit list (callLLMService lines 885–899).
`requestHeaders` keeps the sanitized header map itself rather than its
JSON rendering; `request` keeps the `messages` part of the marshalled
request body (the scalar body fields are claim-irrelevant). -/
structure RawTurn where
  provider : String
  model : String
  url : String
  method : String
  status : Nat
  requestHeaders : List (String × List String)
  request : List ChatMsg
  response : String
deriving DecidableEq

/-- One element of a stored message's `parts` list. -/
structure StoredPart where
  ptype : String
  text : String
  tokenCount : Option Nat := none
deriving DecidableEq

/-- The `info` object of a stored session message, with exactly the
fields the source writes and reads.  `rawRequest` mirrors
`rawTurns[0].request` (see `RawTurn.request`). -/
structure MsgInfo where
  role : String
  createdAt : Nat
  id : String
  model : Option String := none
  service : Option String := none
  rawRequest : Option (List ChatMsg) := none
  rawResponse : Option String := none
  rawTurns : List RawTurn := []
deriving DecidableEq

/-- A stored session message (`map[string]interface{}` with `info` and
`parts`).  The legacy untyped shapes that `normalizeStoredMessage`
tolerates collapse to this typed record; the claims never exercise the
malformed-shape rejection paths. -/
structure StoredMsg where
  info : MsgInfo
  parts : List StoredPart
deriving DecidableEq

/-- `TodoItem` (service.go). -/
structure TodoItem where
  id : String
  content : String
  status : String
  priority : String
deriving DecidableEq

/-- `Session` (service.go). -/
structure Session where
  id : String
  title : String
  summary : String := ""
  createdAt : Nat
  updatedAt : Nat
  messages : List StoredMsg
  parentId : String := ""
  todos : List TodoItem := []
deriving DecidableEq

/-- The session store (`Service.sessions`, a Go map). -/
def Store := List (String × Session)

instance : DecidableEq Store := by
  unfold Store
  infer_instance

/-! ### C1 theorems — cancel-handle cleanup -/

/-- The registry state after: call A begins on "s" (handle 1), call B
begins on "s" (handle 2, cancelling 1), then call A's deferred cleanup
runs. -/
def c1State : CancelRegistry :=
  ((({ handles := [], fired := [] } : CancelRegistry).beginSend "s" 1).beginSend "s" 2).endCleanup "s"

/-- C1, counterexample.  The claim says the first call's cleanup leaves a
handle installed by a later `SendMessage` registered and uncancelled.  In
the code the deferred cleanup deletes and fires whatever handle is
registered: after A's cleanup, B's handle 2 is gone from the registry and
has been cancelled. -/
theorem c1_cleanup_cancels_later_handle :
    ¬ (lookupKey c1State.handles "s" = some 2 ∧ 2 ∉ c1State.fired) := by
  decide

/-- C1, amended: the deferred cleanup of a `SendMessage` call removes and
cancels whatever handle is currently registered for the session — also
one installed by a later call — leaving no handle registered. -/
theorem c1_cleanup_unconditional (r : CancelRegistry) (sid : String) :
    lookupKey (r.endCleanup sid).handles sid = none ∧
      (∀ h, lookupKey r.handles sid = some h → h ∈ (r.endCleanup sid).fired) := by
  constructor
  · unfold CancelRegistry.endCleanup
    cases hcur : lookupKey r.handles sid with
    | none => simp [hcur]
    | some cur => simp [lookupKey_eraseKey_self]
  · intro h hl
    unfold CancelRegistry.endCleanup
    rw [hl]
    simp

/-- C1, witness for the amended theorem: in the `c1State` scenario just
before A's cleanup, the registered handle 2 is removed and fired by the
cleanup. -/
theorem c1_cleanup_unconditional_witness :
    lookupKey (((({ handles := [], fired := [] } : CancelRegistry).beginSend "s" 1).beginSend "s" 2).endCleanup "s").handles "s" = none ∧
      2 ∈ (((({ handles := [], fired := [] } : CancelRegistry).beginSend "s" 1).beginSend "s" 2).endCleanup "s").fired := by
  refine ⟨(c1_cleanup_unconditional _ "s").1, ?_⟩
  exact (c1_cleanup_unconditional ((({ handles := [], fired := [] } : CancelRegistry).beginSend "s" 1).beginSend "s" 2) "s").2 2 (by decide)

/-! ### C9 — session creation (service.go `CreateSession`) -/

/-- The id format of `CreateSession`: `fmt.Sprintf("session_%d", now)`
with `now := time.Now().UnixMilli()`. -/
def mkSessionId (now : Nat) : String :=
  "session_" ++ Nat.repr now

/-- `CreateSession` (service.go lines 213–242), with the clock passed in.
The file save is a warning-only side effect and is not modelled. -/
def createSession (sessions : Store) (now : Nat) (title parentID : String) :
    Store × Session :=
  let sessionID := mkSessionId now
  let title := if title = "" then "New Session" else title
  let session : Session :=
    { id := sessionID, title := title, createdAt := now, updatedAt := now,
      messages := [], parentId := parentID }
  (upsert sessions sessionID session, session)

theorem mkSessionId_injective {a b : Nat} (h : mkSessionId a = mkSessionId b) : a = b := by
  unfold mkSessionId at h
  have hdata : ("session_" ++ Nat.repr a).data = ("session_" ++ Nat.repr b).data := by rw [h]
  simp only [String.data_append] at hdata
  have : (Nat.repr a).data = (Nat.repr b).data := List.append_cancel_left hdata
  exact natRepr_injective (String.ext this)

/-- C9, counterexample.  Two `CreateSession` calls in the same
millisecond produce the same session id, and the second call replaces the
first session in the store: after both calls the store holds a single
session whose title is the second title. -/
theorem c9_same_millisecond_collision :
    (createSession (createSession [] 5 "A" "").1 5 "B" "").2.id
        = (createSession [] 5 "A" "").2.id ∧
      (createSession (createSession [] 5 "A" "").1 5 "B" "").1
        = [("session_5", (createSession (createSession [] 5 "A" "").1 5 "B" "").2)] ∧
      (createSession (createSession [] 5 "A" "").1 5 "B" "").2.title = "B" := by
  refine ⟨rfl, ?_, rfl⟩
  decide

/-- C9, amended: two `CreateSession` calls at distinct `UnixMilli`
timestamps return sessions with distinct ids, and a `CreateSession` call
never disturbs any store entry other than the one at its own id — so it
overwrites an existing session only when that session's id embeds the
same millisecond. -/
theorem c9_createSession_distinct_times (st : Store) (n1 n2 : Nat)
    (t1 t2 p1 p2 : String) (h : n1 ≠ n2) :
    (createSession st n1 t1 p1).2.id
        ≠ (createSession (createSession st n1 t1 p1).1 n2 t2 p2).2.id ∧
      lookupKey (createSession (createSession st n1 t1 p1).1 n2 t2 p2).1
          (mkSessionId n1) = some (createSession st n1 t1 p1).2 ∧
      (∀ k, k ≠ mkSessionId n1 →
        lookupKey (createSession st n1 t1 p1).1 k = lookupKey st k) := by
  have hid : mkSessionId n1 ≠ mkSessionId n2 := fun hc => h (mkSessionId_injective hc)
  refine ⟨hid, ?_, ?_⟩
  · show lookupKey (upsert (upsert st (mkSessionId n1) _) (mkSessionId n2) _) (mkSessionId n1) = _
    rw [lookupKey_upsert_other _ _ _ _ hid, lookupKey_upsert_self]
    rfl
  · intro k hk
    exact lookupKey_upsert_other _ _ _ _ hk

/-- C9, witness for the amended theorem at concrete timestamps 5 and 6. -/
theorem c9_createSession_distinct_times_witness :
    (createSession [] 5 "A" "").2.id ≠ (createSession (createSession [] 5 "A" "").1 6 "B" "").2.id ∧
      lookupKey (createSession (createSession [] 5 "A" "").1 6 "B" "").1 (mkSessionId 5)
        = some (createSession [] 5 "A" "").2 := by
  have h := c9_createSession_distinct_times [] 5 6 "A" "B" "" "" (by decide)
  exact ⟨h.1, h.2.1⟩

/-! ### Character-scanner utilities.

Go's `strings.Index`, `strings.HasPrefix`, `strings.TrimSpace`,
`strings.ToLower` and `strings.Contains` on the ASCII strings the source
manipulates, embedded as structurally recursive functions over
`List Char` so that they are executable and kernel-reducible.  (Go's
`TrimSpace`/`ToLower` also handle non-ASCII whitespace and case; no
behaviour relevant to the claims depends on that.) -/

/-- The whitespace set of `strings.IndexAny(s, " \t\r\n")`, also used for
trimming. -/
def isWsChar (c : Char) : Bool :=
  c == ' ' || c == '\t' || c == '\n' || c == '\r'

def trimChars (l : List Char) : List Char :=
  ((l.dropWhile isWsChar).reverse.dropWhile isWsChar).reverse

def toLowerChars (l : List Char) : List Char :=
  l.map Char.toLower

/-- `strings.HasPrefix` on char lists. -/
def isPre : List Char → List Char → Bool
  | [], _ => true
  | _ :: _, [] => false
  | a :: as, b :: bs => if a = b then isPre as bs else false

theorem isPre_iff (p l : List Char) : isPre p l = true ↔ p <+: l := by
  induction p generalizing l with
  | nil => simp [isPre]
  | cons a as ih =>
      cases l with
      | nil => simp [isPre]
      | cons b bs =>
          by_cases hab : a = b
          · subst hab
            simp [isPre, ih, List.cons_prefix_cons]
          · simp [isPre, hab, List.cons_prefix_cons]

/-- `strings.Index(s, pat)` as a first-occurrence split:
`splitOnSub? l pat = some (before, after)` with `l = before ++ pat ++ after`
and `before` shortest possible; `none` when `pat` does not occur. -/
def splitOnSub? : List Char → List Char → Option (List Char × List Char)
  | [], pat => if pat.isEmpty then some ([], []) else none
  | c :: rest, pat =>
      if isPre pat (c :: rest) then some ([], (c :: rest).drop pat.length)
      else
        match splitOnSub? rest pat with
        | some (b, a) => some (c :: b, a)
        | none => none

/-- `strings.Contains`. -/
def containsSub (l pat : List Char) : Bool :=
  (splitOnSub? l pat).isSome

theorem splitOnSub?_of_isPre (l pat : List Char) (h : isPre pat l = true) :
    splitOnSub? l pat = some ([], l.drop pat.length) := by
  cases l with
  | nil =>
      cases pat with
      | nil => rfl
      | cons p ps => simp [isPre] at h
  | cons c rest => simp [splitOnSub?, h]

/-- If `pat` does not occur anywhere in `a ++ pat.dropLast` (i.e. no
occurrence starts strictly before position `|a|`), the first-occurrence
split of `a ++ pat ++ b` is exactly `(a, b)`. -/
theorem splitOnSub?_append (pat a b : List Char) (hpat : pat ≠ [])
    (h : ¬ pat <:+: (a ++ pat.dropLast)) :
    splitOnSub? (a ++ (pat ++ b)) pat = some (a, b) := by
  induction a with
  | nil =>
      have hpre : isPre pat (pat ++ b) = true :=
        (isPre_iff pat (pat ++ b)).mpr (List.prefix_append pat b)
      rw [List.nil_append, splitOnSub?_of_isPre _ _ hpre, List.drop_left]
  | cons c a' ih =>
      have hnotpre : isPre pat (c :: (a' ++ (pat ++ b))) = false := by
        cases hb : isPre pat (c :: (a' ++ (pat ++ b))) with
        | false => rfl
        | true =>
            exfalso
            apply h
            have hprefix : pat <+: (c :: (a' ++ (pat ++ b))) := (isPre_iff _ _).mp hb
            have hsplit : pat = pat.dropLast ++ [pat.getLast hpat] :=
              (List.dropLast_append_getLast hpat).symm
            have hlen : pat.length ≤ ((c :: a') ++ pat.dropLast).length := by
              have h1 : 1 ≤ pat.length := by
                cases pat with
                | nil => exact absurd rfl hpat
                | cons _ _ => simp
              have h2 : pat.dropLast.length = pat.length - 1 := List.length_dropLast pat
              simp only [List.length_append, List.length_cons, h2]
              omega
            have hshape : (c :: (a' ++ (pat ++ b)))
                = ((c :: a') ++ pat.dropLast) ++ ([pat.getLast hpat] ++ b) := by
              conv_lhs => rw [hsplit]
              simp
            have htake : ((c :: a') ++ pat.dropLast).take pat.length = pat := by
              obtain ⟨t, ht⟩ := hprefix
              have h1 : (c :: (a' ++ (pat ++ b))).take pat.length = pat := by
                rw [← ht, List.take_left]
              rw [hshape, List.take_append_of_le_length hlen] at h1
              exact h1
            have hp := List.take_prefix pat.length ((c :: a') ++ pat.dropLast)
            rw [htake] at hp
            exact hp.isInfix
      have hrest : ¬ pat <:+: (a' ++ pat.dropLast) := by
        intro hc
        apply h
        have hsuf : (a' ++ pat.dropLast) <:+ ((c :: a') ++ pat.dropLast) := by
          refine ⟨[c], ?_⟩
          simp
        exact hc.trans hsuf.isInfix
      have ih' := ih hrest
      show splitOnSub? (c :: (a' ++ (pat ++ b))) pat = some (c :: a', b)
      rw [splitOnSub?]
      rw [hnotpre]
      simp only [Bool.false_eq_true, if_false]
      rw [ih']

/-! ### Model-identifier grammar and the provider router
(service.go `splitProviderModel` and `SendMessage` lines 357–470). -/

/-- The single-colon fallback of `splitProviderModel` (lines 59–65). -/
def splitColonFallback (model : String) : String × String :=
  match splitOnSub? model.data ":".data with
  | some (b, a) =>
      if trimChars b ≠ [] ∧ trimChars a ≠ [] then (String.mk b, String.mk a)
      else ("", model)
  | none => ("", model)

/-- `splitProviderModel` (service.go lines 52–66). -/
def splitProviderModel (model : String) : String × String :=
  match splitOnSub? model.data "::".data with
  | some (b, a) =>
      if trimChars b ≠ [] ∧ trimChars a ≠ [] then (String.mk b, String.mk a)
      else splitColonFallback model
  | none => splitColonFallback model

/-- `SendMessage` lines 357–361: replace the composite id by its model
part when a provider prefix was split off. -/
def effectiveModel (model0 : String) : String :=
  let mid := (splitProviderModel model0).2
  if mid ≠ "" ∧ mid ≠ model0 then mid else model0

/-- A raw `customServices` entry (an untyped JSON object): each field is
present-and-well-typed (`some`) or not (`none`/default), mirroring the
comma-ok type assertions of the source.  Non-string elements of the
`models` array can never equal the model id and are dropped. -/
structure SvcEntry where
  id : Option String := none
  name : Option String := none
  baseUrl : Option String := none
  apiKey : Option String := none
  headers : List (String × String) := []
  models : List String := []
  defaultModel : Option String := none
  authType : Option String := none
  provider : Option String := none
  enabled : Option Bool := none
  contextLimit : Option Nat := none
  toolCalling : Option String := none
deriving DecidableEq

/-- `CustomLLMService` (typed; JSON-decoding an entry fills absent fields
with Go zero values). -/
structure CustomLLMService where
  id : String := ""
  name : String := ""
  baseUrl : String := ""
  apiKey : String := ""
  headers : List (String × String) := []
  models : List String := []
  defaultModel : String := ""
  authType : String := ""
  provider : String := ""
  enabled : Bool := false
  contextLimit : Nat := 0
  toolCalling : String := ""
deriving DecidableEq

/-- `json.Marshal` + `json.Unmarshal` of a raw entry into the typed
struct. -/
def SvcEntry.decode (e : SvcEntry) : CustomLLMService :=
  { id := e.id.getD "", name := e.name.getD "", baseUrl := e.baseUrl.getD "",
    apiKey := e.apiKey.getD "", headers := e.headers, models := e.models,
    defaultModel := e.defaultModel.getD "", authType := e.authType.getD "",
    provider := e.provider.getD "", enabled := e.enabled.getD false,
    contextLimit := e.contextLimit.getD 0, toolCalling := e.toolCalling.getD "" }

/-- A raw legacy `providers` entry (`model`, `base_url`, `api_key`,
`name`). -/
structure ProvEntry where
  model : Option String := none
  baseUrl : Option String := none
  apiKey : Option String := none
  name : Option String := none
deriving DecidableEq

/-- The configuration document, restricted to the two keys the router
reads.  Go iterates the legacy `providers` map in unspecified order; the
association list fixes one order, and no claim depends on it. -/
structure Config where
  customServices : List SvcEntry := []
  providers : List (String × ProvEntry) := []
deriving DecidableEq

/-- The custom-service scan of `SendMessage` (lines 363–395), returning
the id of the service the message is routed to. -/
def scanCustomServices : List SvcEntry → String → String → Option String
  | [], _, _ => none
  | svc :: rest, pid, m =>
      if svc.enabled = some false then scanCustomServices rest pid m
      else
        let sid := svc.id.getD ""
        if pid ≠ "" ∧ sid ≠ pid then scanCustomServices rest pid m
        else if m ∈ svc.models then some sid
        else if pid ≠ "" ∧ svc.defaultModel = some m then some sid
        else scanCustomServices rest pid m

/-- Synthesis of a `CustomLLMService` from a legacy provider entry
(`SendMessage` lines 402–430 / 436–464). -/
def synthFromProv (pid : String) (e : ProvEntry) : CustomLLMService :=
  let providerModel := e.model.getD ""
  let baseURL0 := e.baseUrl.getD ""
  let baseURL :=
    if baseURL0 = "" then
      if containsSub (toLowerChars pid.data) "openai".data then
        "https://api.openai.com/v1/chat/completions"
      else if containsSub (toLowerChars pid.data) "anthropic".data then
        "https://api.anthropic.com/v1/messages"
      else ""
    else baseURL0
  let name0 := e.name.getD ""
  { id := pid, name := if name0 = "" then pid else name0, baseUrl := baseURL,
    apiKey := e.apiKey.getD "", defaultModel := providerModel,
    authType := "bearer", enabled := true }

/-- The legacy `providers` scan of `SendMessage` (lines 397–470). -/
def scanLegacy (providers : List (String × ProvEntry)) (pid m : String) :
    Option CustomLLMService :=
  if pid ≠ "" then
    match lookupKey providers pid with
    | some e => if e.model.getD "" = m then some (synthFromProv pid e) else none
    | none => none
  else
    providers.findSome? fun p =>
      if p.2.model.getD "" = m then some (synthFromProv p.1 p.2) else none

/-- Where `SendMessage` routes a message: a matching custom service, a
synthesized legacy service, or the built-in mock responder. -/
inductive Route
  | custom (serviceID model : String)
  | legacy (svc : CustomLLMService) (model : String)
  | mock
deriving DecidableEq

/-- The provider-resolution portion of `SendMessage` (lines 357–470): the
value describes which send path the call takes. -/
def routeMessage (cfg : Config) (model0 : String) : Route :=
  let pid := (splitProviderModel model0).1
  let m := effectiveModel model0
  match scanCustomServices cfg.customServices pid m with
  | some sid => Route.custom sid m
  | none =>
      match scanLegacy cfg.providers pid m with
      | some svc => Route.legacy svc m
      | none => Route.mock

/-! ### C2 theorems — custom-service routing -/

/-- The match predicate of spec §4.7 as amended: `defaultModel` matches
only when the model id carried a provider prefix equal to the service id. -/
def customServiceMatchSpec (pid m : String) (svc : SvcEntry) : Bool :=
  decide (¬ svc.enabled = some false
    ∧ (pid = "" ∨ svc.id.getD "" = pid)
    ∧ (m ∈ svc.models ∨ (pid ≠ "" ∧ svc.defaultModel = some m)))

def c2Svc : SvcEntry :=
  { id := some "svc", name := some "Svc", enabled := some true,
    models := [], defaultModel := some "m" }

def c2Cfg : Config := { customServices := [c2Svc], providers := [] }

/-- C2, counterexample.  An enabled service whose `defaultModel` equals
the bare model id "m" (carrying no provider prefix) does *not* receive
the message: the router falls through to the mock, because the
`defaultModel` comparison in `SendMessage` (line 387) is guarded by
`providerID != ""`. -/
theorem c2_bare_defaultModel_goes_to_mock :
    (¬ c2Svc.enabled = some false) ∧ c2Svc.defaultModel = some "m" ∧
      (splitProviderModel "m").1 = "" ∧
      routeMessage c2Cfg "m" = Route.mock := by
  refine ⟨by decide, rfl, by decide, by decide⟩

/-- C2, amended: the custom-service scan skips disabled entries, requires
an explicit provider prefix to equal the service id, matches a service
when the model id is in its `models` list — or equals its `defaultModel`,
but only when a provider prefix is present — and the first match wins and
is routed to before any legacy provider or the mock. -/
theorem c2_router_custom_scan :
    (∀ (services : List SvcEntry) (pid m : String),
        scanCustomServices services pid m
          = (services.find? (customServiceMatchSpec pid m)).map (fun s => s.id.getD "")) ∧
      (∀ (cfg : Config) (model0 sid : String),
        scanCustomServices cfg.customServices (splitProviderModel model0).1 (effectiveModel model0)
            = some sid →
          routeMessage cfg model0 = Route.custom sid (effectiveModel model0)) := by
  constructor
  · intro services pid m
    induction services with
    | nil => rfl
    | cons svc rest ih =>
        by_cases h1 : svc.enabled = some false
        · have hpred : customServiceMatchSpec pid m svc = false := by
            simp [customServiceMatchSpec, h1]
          rw [scanCustomServices, if_pos h1, List.find?_cons_of_neg _ (by simp [hpred]), ih]
        · by_cases h2 : pid ≠ "" ∧ svc.id.getD "" ≠ pid
          · have hpred : customServiceMatchSpec pid m svc = false := by
              simp only [customServiceMatchSpec, decide_eq_false_iff_not]
              intro hc
              rcases hc.2.1 with hc1 | hc1
              · exact h2.1 hc1
              · exact h2.2 hc1
            rw [scanCustomServices, if_neg h1]
            simp only [if_pos h2]
            rw [List.find?_cons_of_neg _ (by simp [hpred]), ih]
          · by_cases h3 : m ∈ svc.models
            · have hpred : customServiceMatchSpec pid m svc = true := by
                simp only [customServiceMatchSpec, decide_eq_true_eq]
                refine ⟨h1, ?_, Or.inl h3⟩
                by_cases hp : pid = ""
                · exact Or.inl hp
                · right
                  by_contra hc
                  exact h2 ⟨hp, hc⟩
              rw [scanCustomServices, if_neg h1]
              simp only [if_neg h2, if_pos h3]
              rw [List.find?_cons_of_pos _ hpred]
              rfl
            · by_cases h4 : pid ≠ "" ∧ svc.defaultModel = some m
              · have hpred : customServiceMatchSpec pid m svc = true := by
                  simp only [customServiceMatchSpec, decide_eq_true_eq]
                  refine ⟨h1, ?_, Or.inr h4⟩
                  right
                  by_contra hc
                  exact h2 ⟨h4.1, hc⟩
                rw [scanCustomServices, if_neg h1]
                simp only [if_neg h2, if_neg h3, if_pos h4]
                rw [List.find?_cons_of_pos _ hpred]
                rfl
              · have hpred : customServiceMatchSpec pid m svc = false := by
                  simp only [customServiceMatchSpec, decide_eq_false_iff_not]
                  intro hc
                  rcases hc.2.2 with hc2 | hc2
                  · exact h3 hc2
                  · exact h4 hc2
                rw [scanCustomServices, if_neg h1]
                simp only [if_neg h2, if_neg h3, if_neg h4]
                rw [List.find?_cons_of_neg _ (by simp [hpred]), ih]
  · intro cfg model0 sid hscan
    simp only [routeMessage]
    rw [hscan]

def c2CfgW : Config :=
  { customServices :=
      [{ id := some "svc", name := some "Svc", enabled := some true,
         models := ["m"], defaultModel := some "m" }],
    providers := [] }

/-- C2, witness: a prefixed id `svc::m` advertised in the service's
`models` list routes to that service. -/
theorem c2_router_custom_scan_witness :
    routeMessage c2CfgW "svc::m" = Route.custom "svc" (effectiveModel "svc::m") :=
  c2_router_custom_scan.2 c2CfgW "svc::m" "svc" (by decide)

/-! ### C6 — the context preparer (`prepareMessages`, custom-LLM file
lines 94–181). -/

/-- The rough token count: `len(content)/4`, summed. -/
def countTokens (msgs : List ChatMsg) : Nat :=
  msgs.foldl (fun t m => t + m.content.length / 4) 0

/-- The `limit <= 0` defaulting at the top of `prepareMessages`. -/
def normLimit (limit : Nat) : Nat :=
  if limit ≤ 0 then 100000 else limit

/-- The backward tail scan (lines 152–165), on the *reversed* tail:
accept messages while they fit, stop at the first that does not.  The
result is in reverse order of the original list. -/
def takeTailRev : List ChatMsg → Nat → Nat → List ChatMsg
  | [], _, _ => []
  | m :: rest, cur, limit =>
      let t := m.content.length / 4
      if cur + t > limit then []
      else m :: takeTailRev rest (cur + t) limit

/-- The synthetic truncation notice (lines 172–176). -/
def truncationNote (skipped : Nat) : ChatMsg :=
  { role := "system",
    content := "[Context Truncation: " ++ Nat.repr skipped
      ++ " messages from the middle of the conversation have been removed to fit the token limit. Please focus on the latest messages.]" }

/-- The truncation core of `prepareMessages` (lines 114–180), reached
only when the total exceeds the limit. -/
def truncateCore (msgs : List ChatMsg) (limit : Nat) : List ChatMsg :=
  if msgs.length ≤ 3 then msgs
  else
    match msgs with
    | [] => msgs
    | first :: rest =>
        let cur0 := first.content.length / 4
        let (result, cur) :=
          match rest with
          | [] => ([first], cur0)
          | second :: _ =>
              let st := second.content.length / 4
              if cur0 + st < limit / 2 then ([first, second], cur0 + st)
              else ([first], cur0)
        let keptTail := (takeTailRev ((msgs.drop result.length).reverse) cur limit).reverse
        let withNote :=
          if keptTail.length < msgs.length - result.length then
            let skipped := msgs.length - result.length - keptTail.length
            if skipped > 0 then result ++ [truncationNote skipped] else result
          else result
        withNote ++ keptTail

/-- `prepareMessages`: default the limit, return unchanged when the total
fits, otherwise truncate. -/
def prepareMessages (msgs : List ChatMsg) (limit : Nat) : List ChatMsg :=
  let l := normLimit limit
  if countTokens msgs ≤ l then msgs else truncateCore msgs l

def c6Msg : ChatMsg := { role := "user", content := "aaaaaaaaaaaaaaaaaaaaaaaaaaaaaaaaaaaaaaaa" }

/-- Twelve messages of 10 tokens each: head pair, two middle messages,
eight tail messages; total 120 tokens against a budget of 100. -/
def c6Input : List ChatMsg := List.replicate 12 c6Msg

set_option maxRecDepth 100000 in
/-- C6, counterexample.  On twelve 10-token messages with budget 100 the
first run keeps the head pair and eight tail messages and inserts a
truncation notice counting 2 dropped messages; the notice itself (147
characters ≈ 36 tokens) pushes the output to ≈136 tokens, so a second run
truncates again and re-counts only 1 dropped message — the outputs
differ. -/
theorem c6_double_truncation_differs :
    prepareMessages (prepareMessages c6Input 100) 100 ≠ prepareMessages c6Input 100 := by
  decide

theorem prepareMessages_of_fits (msgs : List ChatMsg) (limit : Nat)
    (h : countTokens msgs ≤ normLimit limit) : prepareMessages msgs limit = msgs := by
  show (if countTokens msgs ≤ normLimit limit then msgs else truncateCore msgs (normLimit limit)) = msgs
  rw [if_pos h]

/-- C6, amended: running the context preparer twice with the same budget
yields the first run's output whenever that output's token count fits the
(defaulted) budget — in particular whenever no truncation occurred; when
the inserted truncation notice pushes the output over the budget, a
second run truncates again and the results differ. -/
theorem c6_idempotent_when_output_fits (msgs : List ChatMsg) (limit : Nat)
    (h : countTokens (prepareMessages msgs limit) ≤ normLimit limit) :
    prepareMessages (prepareMessages msgs limit) limit = prepareMessages msgs limit :=
  prepareMessages_of_fits (prepareMessages msgs limit) limit h

/-- C6, witness for the amended theorem at a single in-budget message. -/
theorem c6_idempotent_when_output_fits_witness :
    prepareMessages (prepareMessages [c6Msg] 100) 100 = prepareMessages [c6Msg] 100 :=
  c6_idempotent_when_output_fits [c6Msg] 100 (by decide)

/-! ### C5 — header sanitization (`sanitizeRequestHeaders`, custom-LLM
file lines 31–54) and the request-header construction of
`callLLMService` (lines 847–868). -/

/-- `strings.HasPrefix(strings.ToLower(strings.TrimSpace(v)), "bearer ")`. -/
def hasBearerShape (v : String) : Bool :=
  isPre "bearer ".data (toLowerChars (trimChars v.data))

/-- `sanitizeRequestHeaders`, with the seven-name switch written as in
the source.  Header names keep their original spelling; only values of
sensitive names are replaced. -/
def sanitizeRequestHeaders (h : List (String × List String)) :
    List (String × List String) :=
  h.foldr
    (fun (kv : String × List String) out =>
      let lk := String.mk (toLowerChars (trimChars kv.1.data))
      if lk = "" then out
      else if lk = "authorization" ∨ lk = "x-api-key" ∨ lk = "api-key"
          ∨ lk = "x-auth-token" ∨ lk = "x-access-token"
          ∨ lk = "cookie" ∨ lk = "set-cookie" then
        (kv.1, kv.2.map fun vv =>
          if lk = "authorization" ∧ hasBearerShape vv then "Bearer <redacted>"
          else "<redacted>") :: out
      else (kv.1, kv.2) :: out)
    []

/-- The redaction rule as the spec words it, per header entry. -/
def sensitiveHeaderNames : List String :=
  ["authorization", "x-api-key", "api-key", "x-auth-token", "x-access-token",
    "cookie", "set-cookie"]

/-- Spec-side formulation of the sanitizer: drop empty names, redact the
values of the listed names case-insensitively (`Bearer <redacted>` for an
Authorization value of Bearer form, `<redacted>` otherwise), pass
everything else through. -/
def sanitizeHeaderEntrySpec (kv : String × List String) :
    Option (String × List String) :=
  let lk := String.mk (toLowerChars (trimChars kv.1.data))
  if lk = "" then none
  else if lk ∈ sensitiveHeaderNames then
    some (kv.1, kv.2.map fun vv =>
      if lk = "authorization" ∧ hasBearerShape vv then "Bearer <redacted>"
      else "<redacted>")
  else some kv

/-- `req.Header.Set(k, v)`: replace any entry whose (case-insensitive,
canonicalized) name matches, i.e. keep other names and append the new
binding. -/
def headerSet (hs : List (String × List String)) (k v : String) :
    List (String × List String) :=
  hs.filter (fun p => decide (toLowerChars p.1.data ≠ toLowerChars k.data)) ++ [(k, [v])]

/-- The outbound header construction of `callLLMService` (lines
847–868): Content-Type, then the provider/auth headers, then the
config's static custom headers applied last. -/
def buildRequestHeaders (cfg : CustomLLMService) : List (String × List String) :=
  let h0 := headerSet [] "Content-Type" "application/json"
  let h1 :=
    if cfg.provider = "anthropic" then
      headerSet (headerSet h0 "x-api-key" cfg.apiKey) "anthropic-version" "2023-06-01"
    else if cfg.authType = "apiKey" ∨ cfg.authType = "bearer" then
      if cfg.apiKey ≠ "" then headerSet h0 "Authorization" ("Bearer " ++ cfg.apiKey) else h0
    else if cfg.authType = "none" then h0
    else if cfg.apiKey ≠ "" then headerSet h0 "Authorization" ("Bearer " ++ cfg.apiKey)
    else h0
  cfg.headers.foldl (fun h kv => headerSet h kv.1 kv.2) h1

/-- C5, amended (theorem): the sanitizer is exactly the per-entry spec
redaction — the seven names are redacted case-insensitively, an
Authorization value of Bearer form becomes `Bearer <redacted>`, every
other sensitive value `<redacted>` — and every value surviving under a
sensitive name is one of the two redaction constants.  (API keys echoed
in *custom, non-sensitive* headers are not redacted; see the
counterexample.) -/
theorem c5_sanitize_redacts_sensitive (h : List (String × List String)) :
    sanitizeRequestHeaders h = h.filterMap sanitizeHeaderEntrySpec ∧
      (∀ p ∈ sanitizeRequestHeaders h,
        String.mk (toLowerChars (trimChars p.1.data)) ∈ sensitiveHeaderNames →
          ∀ s ∈ p.2, s = "<redacted>" ∨ s = "Bearer <redacted>") := by
  have heq : sanitizeRequestHeaders h = h.filterMap sanitizeHeaderEntrySpec := by
    induction h with
    | nil => rfl
    | cons kv rest ih =>
        obtain ⟨k, vs⟩ := kv
        show (let lk := String.mk (toLowerChars (trimChars k.data)) ; _) = _
        by_cases h0 : String.mk (toLowerChars (trimChars k.data)) = ""
        · simp only [sanitizeRequestHeaders, List.foldr, List.filterMap,
            sanitizeHeaderEntrySpec, h0, if_pos, if_true]
          simp only [sanitizeRequestHeaders] at ih
          simpa [h0] using ih
        · by_cases h1 : String.mk (toLowerChars (trimChars k.data)) ∈ sensitiveHeaderNames
          · have h1' : String.mk (toLowerChars (trimChars k.data)) = "authorization"
                ∨ String.mk (toLowerChars (trimChars k.data)) = "x-api-key"
                ∨ String.mk (toLowerChars (trimChars k.data)) = "api-key"
                ∨ String.mk (toLowerChars (trimChars k.data)) = "x-auth-token"
                ∨ String.mk (toLowerChars (trimChars k.data)) = "x-access-token"
                ∨ String.mk (toLowerChars (trimChars k.data)) = "cookie"
                ∨ String.mk (toLowerChars (trimChars k.data)) = "set-cookie" := by
              simpa [sensitiveHeaderNames] using h1
            simp only [sanitizeRequestHeaders, List.foldr] at ih ⊢
            simp only [h0, if_neg, h1', if_true, ite_true]
            rw [ih]
            simp only [List.filterMap, sanitizeHeaderEntrySpec, h0, if_neg, h1, if_pos]
            simp [h0]
          · have h1' : ¬ (String.mk (toLowerChars (trimChars k.data)) = "authorization"
                ∨ String.mk (toLowerChars (trimChars k.data)) = "x-api-key"
                ∨ String.mk (toLowerChars (trimChars k.data)) = "api-key"
                ∨ String.mk (toLowerChars (trimChars k.data)) = "x-auth-token"
                ∨ String.mk (toLowerChars (trimChars k.data)) = "x-access-token"
                ∨ String.mk (toLowerChars (trimChars k.data)) = "cookie"
                ∨ String.mk (toLowerChars (trimChars k.data)) = "set-cookie") := by
              simpa [sensitiveHeaderNames] using h1
            simp only [sanitizeRequestHeaders, List.foldr] at ih ⊢
            simp only [h0, h1', if_neg, if_false, ite_false]
            rw [ih]
            simp [List.filterMap, sanitizeHeaderEntrySpec, h0, h1]
  refine ⟨heq, ?_⟩
  intro p hp hsens s hs
  rw [heq] at hp
  rcases List.mem_filterMap.mp hp with ⟨q, _hq, hspec⟩
  unfold sanitizeHeaderEntrySpec at hspec
  by_cases hq0 : String.mk (toLowerChars (trimChars q.1.data)) = ""
  · simp [hq0] at hspec
  · by_cases hq1 : String.mk (toLowerChars (trimChars q.1.data)) ∈ sensitiveHeaderNames
    · simp only [hq0, if_neg, hq1, if_pos, ite_false, ite_true] at hspec
      obtain ⟨hfst, hsnd⟩ := Prod.mk.injEq .. ▸ (Option.some.injEq .. ▸ hspec)
      rw [← hsnd] at hs
      rcases List.mem_map.mp hs with ⟨v0, _hv0, hv⟩
      by_cases hb : String.mk (toLowerChars (trimChars q.1.data)) = "authorization" ∧ hasBearerShape v0
      · right; rw [← hv]; simp [hb]
      · left; rw [← hv]; simp [hb]
    · simp only [hq0, hq1, ite_false, if_false] at hspec
      have : q = p := by simpa using hspec
      subst this
      exact absurd hsens (by simpa using hq1)

/-- C5, witness for the amended theorem: a Bearer Authorization header
and a cookie are redacted, a plain header passes through. -/
theorem c5_sanitize_redacts_sensitive_witness :
    sanitizeRequestHeaders
        [("Authorization", ["Bearer sk-1"]), ("Cookie", ["a=b"]), ("X-Plain", ["v"])]
      = [("Authorization", ["Bearer <redacted>"]), ("Cookie", ["<redacted>"]), ("X-Plain", ["v"])] ∧
      ∀ s ∈ ["Bearer <redacted>"], s = "<redacted>" ∨ s = "Bearer <redacted>" := by
  constructor
  · rw [(c5_sanitize_redacts_sensitive
      [("Authorization", ["Bearer sk-1"]), ("Cookie", ["a=b"]), ("X-Plain", ["v"])]).1]
    decide
  · intro s hs
    exact (c5_sanitize_redacts_sensitive
        [("Authorization", ["Bearer sk-1"]), ("Cookie", ["a=b"]), ("X-Plain", ["v"])]).2
      ("Authorization", ["Bearer <redacted>"]) (by decide) (by decide) s (by
        simpa using hs)

/-! ### C8 — the XML tool-call parser (tool_calling.go lines 253–372).

The imperative index-based scanners are embedded as recursions on the
unscanned suffix; the loops only ever inspect `s[i:]`, so this is the
same computation.  A fuel argument bounds the iteration count; every
iteration strictly shortens the suffix, so `length + 1` fuel is always
enough. -/

/-- `strings.IndexAny(tagName, " \t\r\n")` truncation (keep up to the
first whitespace). -/
def cutAtWs (l : List Char) : List Char :=
  l.takeWhile fun c => !isWsChar c

/-- The `</tag>` closing pattern. -/
def closeTagL (k : List Char) : List Char :=
  '<' :: '/' :: (k ++ ['>'])

/-- The scanning loop of `parseArgsFirstLevel` (lines 310–348): find
`<`, skip `</`, read the tag name up to `>`, trim it and cut it at
whitespace, then take everything up to the matching `</tag>` as the
value. -/
def argsLoopGo : Nat → List Char → List (String × String) → List (String × String)
  | 0, _, out => out
  | fuel + 1, s, out =>
      match splitOnSub? s ['<'] with
      | none => out
      | some (_, afterLt) =>
          match afterLt with
          | [] => out
          | c :: rest =>
              if c = '/' then argsLoopGo fuel rest out
              else
                match splitOnSub? (c :: rest) ['>'] with
                | none => out
                | some (between, afterGt) =>
                    let tagName := cutAtWs (trimChars between)
                    if tagName = [] then argsLoopGo fuel afterGt out
                    else
                      match splitOnSub? afterGt (closeTagL tagName) with
                      | none => out
                      | some (value, afterClose) =>
                          argsLoopGo fuel afterClose
                            (upsert out (String.mk tagName) (String.mk value))

/-- `parseArgsFirstLevel`. -/
def parseArgsFirstLevel (s : String) : List (String × String) :=
  argsLoopGo (s.data.length + 1) s.data []

/-- `extractTagInner` (lines 350–364). -/
def extractTagInner (s tag : List Char) : Option (List Char) :=
  match splitOnSub? s ('<' :: (tag ++ ['>'])) with
  | none => none
  | some (_, afterOpen) =>
      match splitOnSub? afterOpen ('<' :: '/' :: (tag ++ ['>'])) with
      | none => none
      | some (inner, _) => some inner

/-- `parseToolCallBlock` (lines 289–308). -/
def parseToolCallBlock (block : List Char) : Except String ToolCallX :=
  match extractTagInner block "tool_call".data with
  | none => .error "invalid tool_call block"
  | some inner =>
      match extractTagInner inner "name".data with
      | none => .error "missing tool name"
      | some nameInner =>
          if trimChars nameInner = [] then .error "missing tool name"
          else
            let argsInner := (extractTagInner inner "args".data).getD []
            let argsRaw := argsLoopGo (argsInner.length + 1) argsInner []
            .ok { name := String.mk (trimChars nameInner),
                  args := argsRaw.map fun kv => (kv.1, AnyVal.str kv.2) }

/-- The block scanner of `extractToolCallBlocks` (lines 269–287). -/
def extractBlocksGo : Nat → List Char → List (List Char) → List (List Char)
  | 0, _, acc => acc
  | fuel + 1, s, acc =>
      match splitOnSub? s "<tool_call>".data with
      | none => acc
      | some (_, afterOpen) =>
          match splitOnSub? afterOpen "</tool_call>".data with
          | none => acc
          | some (inner, afterClose) =>
              extractBlocksGo fuel afterClose
                (acc ++ ["<tool_call>".data ++ inner ++ "</tool_call>".data])

/-- `parseXMLToolCallsFromText` (lines 253–267). -/
def parseXMLToolCallsFromText (text : String) : Except String (List ToolCallX) :=
  let blocks := extractBlocksGo (text.data.length + 1) text.data []
  if blocks = [] then .ok []
  else blocks.mapM parseToolCallBlock

/-! #### The C8 round-trip development -/

/-- Spec-side rendering of a flat argument record: the concatenation of
`<k>v</k>` blocks.  Values are deliberately *not* escaped; the claim is
about values that may contain unescaped nested tags. -/
def renderArgsL : List (List Char × List Char) → List Char
  | [] => []
  | (k, v) :: rest => '<' :: (k ++ ('>' :: (v ++ (closeTagL k ++ renderArgsL rest))))

/-- A tag name the scanner reads back intact: nonempty, and free of the
four structural characters and whitespace. -/
def validArgKey (k : List Char) : Prop :=
  k ≠ [] ∧ ∀ c ∈ k, c ≠ '<' ∧ c ≠ '>' ∧ c ≠ '/' ∧ isWsChar c = false

instance (k : List Char) : Decidable (validArgKey k) := by
  unfold validArgKey
  infer_instance

/-- The value must not contain (nor overlap into) an occurrence of its
own closing tag before the real one: no occurrence of `</k>` starts
inside `v`. -/
def validArgVal (k v : List Char) : Prop :=
  ¬ closeTagL k <:+: (v ++ (closeTagL k).dropLast)

instance (k v : List Char) : Decidable (validArgVal k v) := by
  unfold validArgVal
  exact instDecidableNot

theorem singleton_infix_iff {a : Char} {l : List Char} : [a] <:+: l ↔ a ∈ l := by
  constructor
  · intro h
    exact (List.singleton_sublist).mp h.sublist
  · intro h
    obtain ⟨s, t, hst⟩ := List.append_of_mem h
    exact ⟨s, t, by simp [hst]⟩

theorem dropWhile_eq_self_of (p : Char → Bool) (l : List Char)
    (h : ∀ c ∈ l, p c = false) : l.dropWhile p = l := by
  cases l with
  | nil => rfl
  | cons c rest => simp [List.dropWhile, h c (List.mem_cons_self c rest)]

theorem trimChars_of_noWs (l : List Char) (h : ∀ c ∈ l, isWsChar c = false) :
    trimChars l = l := by
  unfold trimChars
  rw [dropWhile_eq_self_of _ _ h]
  rw [dropWhile_eq_self_of _ _ (fun c hc => h c (List.mem_reverse.mp hc))]
  exact List.reverse_reverse l

theorem takeWhile_eq_self_of (p : Char → Bool) (l : List Char)
    (h : ∀ c ∈ l, p c = true) : l.takeWhile p = l := by
  induction l with
  | nil => rfl
  | cons c rest ih =>
      simp [List.takeWhile, h c (List.mem_cons_self c rest),
        ih fun d hd => h d (List.mem_cons_of_mem c hd)]

theorem cutAtWs_of_valid (k : List Char) (h : ∀ c ∈ k, isWsChar c = false) :
    cutAtWs k = k := by
  unfold cutAtWs
  exact takeWhile_eq_self_of _ _ fun c hc => by simp [h c hc]

theorem renderArgsL_length_ge (pairs : List (List Char × List Char)) :
    pairs.length ≤ (renderArgsL pairs).length := by
  induction pairs with
  | nil => simp [renderArgsL]
  | cons p rest ih =>
      obtain ⟨k, v⟩ := p
      simp only [renderArgsL, List.length_cons, List.length_append]
      omega

theorem argsLoopGo_step (f : Nat) (k v rest : List Char) (out : List (String × String))
    (hkval : validArgKey k) (hval : validArgVal k v) :
    argsLoopGo (f + 1) ('<' :: (k ++ ('>' :: (v ++ (closeTagL k ++ rest))))) out
      = argsLoopGo f rest (upsert out (String.mk k) (String.mk v)) := by
  obtain ⟨hkne, hkchars⟩ := hkval
  obtain ⟨c, k', rfl⟩ : ∃ c k', k = c :: k' := by
    cases k with
    | nil => exact absurd rfl hkne
    | cons c k' => exact ⟨c, k', rfl⟩
  have hcchars := hkchars c (List.mem_cons_self c k')
  have hA : splitOnSub? ('<' :: ((c :: k') ++ ('>' :: (v ++ (closeTagL (c :: k') ++ rest))))) ['<']
      = some ([], (c :: k') ++ ('>' :: (v ++ (closeTagL (c :: k') ++ rest)))) := by
    rw [splitOnSub?]
    simp [isPre]
  have hnogt : ¬ ['>'] <:+: (c :: k') := by
    rw [singleton_infix_iff]
    intro hm
    exact ((hkchars '>' hm).2.1) rfl
  have hB : splitOnSub? ((c :: k') ++ (['>'] ++ (v ++ (closeTagL (c :: k') ++ rest)))) ['>']
      = some (c :: k', v ++ (closeTagL (c :: k') ++ rest)) :=
    splitOnSub?_append ['>'] (c :: k') (v ++ (closeTagL (c :: k') ++ rest)) (by simp)
      (by simpa using hnogt)
  have htag : cutAtWs (trimChars (c :: k')) = c :: k' := by
    rw [trimChars_of_noWs _ fun d hd => (hkchars d hd).2.2.2]
    exact cutAtWs_of_valid _ fun d hd => (hkchars d hd).2.2.2
  have hD : splitOnSub? (v ++ (closeTagL (c :: k') ++ rest)) (closeTagL (c :: k'))
      = some (v, rest) :=
    splitOnSub?_append (closeTagL (c :: k')) v rest (by simp [closeTagL]) hval
  rw [argsLoopGo, hA]
  simp only [List.cons_append]
  rw [if_neg (fun hc => ((hcchars.2.2.1) hc))]
  have hB' : splitOnSub? (c :: (k' ++ ('>' :: (v ++ (closeTagL (c :: k') ++ rest))))) ['>']
      = some (c :: k', v ++ (closeTagL (c :: k') ++ rest)) := by
    simpa using hB
  rw [hB']
  simp only [htag]
  rw [if_neg (by simp : ¬ (c :: k') = [])]
  rw [hD]

theorem argsLoopGo_render (pairs : List (List Char × List Char)) :
    ∀ (fuel : Nat) (out : List (String × String)), pairs.length + 1 ≤ fuel →
      (∀ p ∈ pairs, validArgKey p.1) →
      (∀ p ∈ pairs, validArgVal p.1 p.2) →
      argsLoopGo fuel (renderArgsL pairs) out
        = pairs.foldl (fun acc p => upsert acc (String.mk p.1) (String.mk p.2)) out := by
  induction pairs with
  | nil =>
      intro fuel out hfuel _ _
      cases fuel with
      | zero => omega
      | succ f => rfl
  | cons p ps ih =>
      intro fuel out hfuel hk hv
      obtain ⟨k, v⟩ := p
      cases fuel with
      | zero => omega
      | succ f =>
          have hstep := argsLoopGo_step f k v (renderArgsL ps) out
            (hk (k, v) (List.mem_cons_self _ _)) (hv (k, v) (List.mem_cons_self _ _))
          show argsLoopGo (f + 1) (renderArgsL ((k, v) :: ps)) out = _
          rw [renderArgsL, hstep]
          rw [ih f _ (by simp at hfuel ⊢; omega)
            (fun q hq => hk q (List.mem_cons_of_mem _ hq))
            (fun q hq => hv q (List.mem_cons_of_mem _ hq))]
          rfl

/-- C8, amended (theorem): decoding the `<args>` body parses exactly the
first-level children into a flat string-to-string record — for any
sequence of `<k>v</k>` blocks whose tag names are well formed and whose
values do not contain their own closing tag, the scanner returns
precisely those pairs (with Go-map overwrite on duplicate keys).  The
values may contain arbitrary unescaped nested tags or CDATA markers,
which are preserved verbatim (CDATA is *not* unwrapped; see the
counterexample). -/
theorem c8_parse_args_first_level (pairs : List (List Char × List Char))
    (hk : ∀ p ∈ pairs, validArgKey p.1)
    (hv : ∀ p ∈ pairs, validArgVal p.1 p.2) :
    parseArgsFirstLevel (String.mk (renderArgsL pairs))
      = pairs.foldl (fun acc p => upsert acc (String.mk p.1) (String.mk p.2)) [] := by
  unfold parseArgsFirstLevel
  exact argsLoopGo_render pairs _ []
    (by
      have := renderArgsL_length_ge pairs
      simp only [String.mk]
      omega)
    hk hv

/-- C8, witness: a two-argument body whose second value contains an
unescaped nested tag round-trips to the flat map. -/
theorem c8_parse_args_first_level_witness :
    parseArgsFirstLevel "<path>a.txt</path><content>hello <b>world</b></content>"
      = [("path", "a.txt"), ("content", "hello <b>world</b>")] := by
  have h := c8_parse_args_first_level
    [("path".data, "a.txt".data), ("content".data, "hello <b>world</b>".data)]
    (by decide) (by decide)
  exact h

/-- C8, counterexample.  A value wrapped in a CDATA section is *not*
unwrapped to its inner text: the decoder stores the CDATA markers
verbatim. -/
theorem c8_cdata_not_unwrapped :
    parseArgsFirstLevel "<path><![CDATA[a.txt]]></path>"
        = [("path", "<![CDATA[a.txt]]>")] ∧
      lookupKey (parseArgsFirstLevel "<path><![CDATA[a.txt]]></path>") "path"
        ≠ some "a.txt" := by
  refine ⟨by decide, by decide⟩

/-! ### C7 — the tool catalog and dispatcher (tool_calling.go).

Each handler's I/O (file system, command runner, clock) is an oracle in
`ToolEnv`; observable side effects are recorded in a `ToolEffect` trace
so that "no file is written and no command is run" is a statement about
the trace.  Per-tool timeouts only shape *when* a call fails, never what
a completed call computes, and are absorbed into the oracle outcomes. -/

inductive ToolEffect
  | fileWrite (path content : String)
  | commandRun (cmd : String)
deriving DecidableEq

/-- The effect oracles the handlers draw on. -/
structure ToolEnv where
  nanoTime : Nat
  nowMs : Nat
  findFiles : String → Except String (List String)
  fileContent : String → Except String String
  listFiles : String → Except String (List (String × String))
  runCommand : String → Except String String
  saveFile : String → String → Except String Unit

/-- `requireStringArg` (tool_calling.go lines 410–420). -/
def requireStringArg (args : List (String × AnyVal)) (key : String) :
    Except String String :=
  match lookupKey args key with
  | none => .error ("missing required arg: " ++ key)
  | some AnyVal.null => .error ("missing required arg: " ++ key)
  | some (AnyVal.str s) => .ok s
  | some _ => .error ("arg " ++ key ++ " must be a string")

/-- `optionalBoolArg` (lines 422–441). -/
def optionalBoolArg (args : List (String × AnyVal)) (key : String) (dflt : Bool) :
    Except String Bool :=
  match lookupKey args key with
  | none => .ok dflt
  | some AnyVal.null => .ok dflt
  | some (AnyVal.boolv b) => .ok b
  | some (AnyVal.str s) =>
      if toLowerChars (trimChars s.data) = "true".data then .ok true
      else if toLowerChars (trimChars s.data) = "false".data then .ok false
      else .error ("arg " ++ key ++ " must be true|false")
  | some _ => .error ("arg " ++ key ++ " must be true|false")

/-- `strings.Join(xs, sep)`. -/
def joinSep (sep : String) : List String → String
  | [] => ""
  | [s] => s
  | s :: rest => s ++ sep ++ joinSep sep rest

/-- `Service.UpdateSessionTodos` (service.go lines 1381–1394). -/
def updateSessionTodos (store : Store) (sessionID : String) (todos : List TodoItem)
    (nowMs : Nat) : Except String Store :=
  match lookupKey store sessionID with
  | none => .error ("session not found: " ++ sessionID)
  | some s => .ok (upsert store sessionID { s with todos := todos, updatedAt := nowMs })

/-- In-place update of the first todo with the given id (the `update`
loop of `manage_todo`, which breaks after the first match). -/
def updateFirstTodo : List TodoItem → String → Bool → String → List TodoItem
  | [], _, _, _ => []
  | t :: rest, id, hasStatus, status =>
      if t.id = id then
        (if hasStatus ∧ trimChars status.data ≠ [] then { t with status := status } else t) :: rest
      else t :: updateFirstTodo rest id hasStatus status

/-- The `manage_todo` handler (tool_calling.go lines 708–795). -/
def manageTodoExec (env : ToolEnv) (store : Store) (sessionID : String)
    (args : List (String × AnyVal)) : Except String (String × List ToolEffect × Store) :=
  match requireStringArg args "action" with
  | .error e => .error e
  | .ok action =>
      match lookupKey store sessionID with
      | none => .error "session not found"
      | some session =>
          let todos := session.todos
          if action = "add" then
            match requireStringArg args "content" with
            | .error e => .error e
            | .ok content =>
                let newTodo : TodoItem :=
                  { id := "todo_" ++ Nat.repr env.nanoTime, content := content,
                    status := "pending", priority := "medium" }
                let store' :=
                  (updateSessionTodos store sessionID (todos ++ [newTodo]) env.nowMs).toOption.getD store
                .ok ("Todo added: " ++ content ++ " (ID: " ++ newTodo.id ++ ")", [], store')
          else if action = "update" then
            match requireStringArg args "id" with
            | .error e => .error e
            | .ok tid =>
                let hasStatus := (lookupKey args "status").isSome
                let status :=
                  match lookupKey args "status" with
                  | some (AnyVal.str s) => s
                  | _ => ""
                if todos.any fun t => t.id == tid then
                  let store' :=
                    (updateSessionTodos store sessionID
                      (updateFirstTodo todos tid hasStatus status) env.nowMs).toOption.getD store
                  .ok ("Todo updated: " ++ tid, [], store')
                else .error ("todo " ++ tid ++ " not found")
          else if action = "delete" then
            match requireStringArg args "id" with
            | .error e => .error e
            | .ok tid =>
                if todos.any fun t => t.id == tid then
                  let store' :=
                    (updateSessionTodos store sessionID
                      (todos.filter fun t => decide (t.id ≠ tid)) env.nowMs).toOption.getD store
                  .ok ("Todo deleted: " ++ tid, [], store')
                else .error ("todo " ++ tid ++ " not found")
          else if action = "list" then
            if todos = [] then .ok ("No todos in this session.", [], store)
            else
              .ok (joinSep "\n" (todos.map fun t =>
                (if t.status = "completed" then "[x]"
                 else if t.status = "in_progress" then "[/]" else "[ ]")
                  ++ " " ++ t.content ++ " (ID: " ++ t.id ++ ")"), [], store)
          else .error "unknown action. Use add, update, delete, or list."

/-- The `Execute` bodies of the eight handlers (tool_calling.go lines
443–795), dispatched by name. -/
def execHandler (env : ToolEnv) (store : Store) (sessionID name : String)
    (args : List (String × AnyVal)) : Except String (String × List ToolEffect × Store) :=
  if name = "search_files" then
    match requireStringArg args "query" with
    | .error e => .error e
    | .ok query =>
        match env.findFiles query with
        | .error e => .error e
        | .ok files => .ok (joinSep "\n" files, [], store)
  else if name = "read_file" then
    match requireStringArg args "path" with
    | .error e => .error e
    | .ok path =>
        match env.fileContent path with
        | .error e => .error e
        | .ok content =>
            let fileContent :=
              if content.data.length > 5000 then
                String.mk (content.data.take 5000) ++ "... (truncated)"
              else content
            .ok (fileContent, [], store)
  else if name = "list_files" then
    match requireStringArg args "path" with
    | .error e => .error e
    | .ok path =>
        match env.listFiles path with
        | .error e => .error e
        | .ok files =>
            .ok (joinSep "\n" (files.map fun f => f.1 ++ " (" ++ f.2 ++ ")"), [], store)
  else if name = "run_command" then
    match requireStringArg args "command" with
    | .error e => .error e
    | .ok command =>
        match env.runCommand command with
        | .error e => .error e
        | .ok out => .ok (out, [ToolEffect.commandRun command], store)
  else if name = "save_file" then
    match requireStringArg args "path" with
    | .error e => .error e
    | .ok path =>
        match requireStringArg args "content" with
        | .error e => .error e
        | .ok content =>
            match env.saveFile path content with
            | .error e => .error e
            | .ok _ => .ok ("File saved successfully", [ToolEffect.fileWrite path content], store)
  else if name = "git_status" then
    match env.runCommand "git status --short" with
    | .error e => .error e
    | .ok out =>
        let status := String.mk (trimChars out.data)
        .ok (if status = "" then "Clean working tree" else status,
          [ToolEffect.commandRun "git status --short"], store)
  else if name = "git_diff" then
    match optionalBoolArg args "staged" false with
    | .error e => .error e
    | .ok staged =>
        let command := if staged then "git diff --cached" else "git diff"
        match env.runCommand command with
        | .error e => .error e
        | .ok out =>
            let diff := String.mk (trimChars out.data)
            .ok (if diff = "" then "No changes" else diff,
              [ToolEffect.commandRun command], store)
  else if name = "manage_todo" then manageTodoExec env store sessionID args
  else .error "unreachable"

/-- `newToolRegistry` with each handler's `AllowedInPlanMode` bit. -/
def toolCatalog : List (String × Bool) :=
  [("search_files", true), ("read_file", true), ("list_files", true),
    ("run_command", false), ("save_file", false), ("git_status", true),
    ("git_diff", true), ("manage_todo", true)]

/-- `executeToolCall` (tool_calling.go lines 85–121). -/
def executeToolCall (env : ToolEnv) (store : Store) (sessionID : String)
    (call : ToolCallX) (planMode : Bool) : ToolResult × List ToolEffect × Store :=
  let cid := if call.id = "" then "toolcall_" ++ Nat.repr env.nanoTime else call.id
  match lookupKey toolCatalog call.name with
  | none =>
      ({ toolCallId := cid, name := call.name,
         content := "Unknown tool: " ++ call.name, isError := true }, [], store)
  | some allowed =>
      if planMode && !allowed then
        ({ toolCallId := cid, name := call.name,
           content := "Tool not allowed in PLAN mode: " ++ call.name, isError := true }, [], store)
      else
        match execHandler env store sessionID call.name call.args with
        | .error e =>
            ({ toolCallId := cid, name := call.name,
               content := "Error: " ++ e, isError := true }, [], store)
        | .ok (out, effs, store') =>
            ({ toolCallId := cid, name := call.name,
               content := out, isError := false }, effs, store')

/-- `strings.HasPrefix(message, "[MODE: PLAN]")` — the plan-mode switch
of `sendLLMMessageInternal` (custom-LLM file lines 400–405). -/
def hasPlanModeTag (message : String) : Bool :=
  isPre "[MODE: PLAN]".data message.data

/-- C7: when the user message begins with `[MODE: PLAN]`, dispatching
`run_command` or `save_file` returns the flagged
"Tool not allowed in PLAN mode" output without executing the handler —
the effect trace is empty and the store untouched — while the six
read-only-or-todo tools behave exactly as they would outside plan mode. -/
theorem c7_plan_mode_gating (message : String) (h : hasPlanModeTag message = true)
    (env : ToolEnv) (store : Store) (sessionID : String) (call : ToolCallX) :
    ((call.name = "run_command" ∨ call.name = "save_file") →
      (executeToolCall env store sessionID call (hasPlanModeTag message)).1.content
          = "Tool not allowed in PLAN mode: " ++ call.name ∧
        (executeToolCall env store sessionID call (hasPlanModeTag message)).1.isError = true ∧
        (executeToolCall env store sessionID call (hasPlanModeTag message)).2.1 = [] ∧
        (executeToolCall env store sessionID call (hasPlanModeTag message)).2.2 = store) ∧
      (call.name ∈ ["search_files", "read_file", "list_files", "git_status",
          "git_diff", "manage_todo"] →
        executeToolCall env store sessionID call (hasPlanModeTag message)
          = executeToolCall env store sessionID call false) := by
  rw [h]
  obtain ⟨cid0, cname, cargs⟩ := call
  constructor
  · rintro (rfl | rfl) <;> exact ⟨rfl, rfl, rfl, rfl⟩
  · intro hmem
    simp only [List.mem_cons, List.mem_singleton] at hmem
    rcases hmem with rfl | rfl | rfl | rfl | rfl | rfl | hfalse
    · rfl
    · rfl
    · rfl
    · rfl
    · rfl
    · rfl
    · simp at hfalse

def c7Env : ToolEnv :=
  { nanoTime := 0, nowMs := 0,
    findFiles := fun _ => .ok [], fileContent := fun _ => .ok "",
    listFiles := fun _ => .ok [], runCommand := fun _ => .ok "",
    saveFile := fun _ _ => .ok () }

/-- C7, witness: in a `[MODE: PLAN]`-tagged turn, a `save_file` call is
denied with an empty effect trace, and a `git_status` call behaves as in
act mode. -/
theorem c7_plan_mode_gating_witness :
    (executeToolCall c7Env [] "s" { id := "", name := "save_file", args := [] }
        (hasPlanModeTag "[MODE: PLAN] please save it")).1.content
        = "Tool not allowed in PLAN mode: save_file" ∧
      (executeToolCall c7Env [] "s" { id := "", name := "save_file", args := [] }
          (hasPlanModeTag "[MODE: PLAN] please save it")).2.1 = [] ∧
      executeToolCall c7Env [] "s" { id := "", name := "git_status", args := [] }
          (hasPlanModeTag "[MODE: PLAN] please save it")
        = executeToolCall c7Env [] "s" { id := "", name := "git_status", args := [] } false := by
  have h1 := c7_plan_mode_gating "[MODE: PLAN] please save it" (by decide) c7Env [] "s"
    { id := "", name := "save_file", args := [] }
  have h2 := c7_plan_mode_gating "[MODE: PLAN] please save it" (by decide) c7Env [] "s"
    { id := "", name := "git_status", args := [] }
  exact ⟨(h1.1 (Or.inr rfl)).1, (h1.1 (Or.inr rfl)).2.2.1, h2.2 (by simp)⟩

/-! ### The LLM call loop (`callLLMService`, custom-LLM file lines
780–1025) and its codec helpers (tool_calling.go lines 123–169,
tool_protocol.go). -/

/-- `resolveToolCallingMode` (tool_protocol.go). -/
def resolveToolCallingMode (cfg : CustomLLMService) : String :=
  let mode := String.mk (toLowerChars (trimChars cfg.toolCalling.data))
  if mode = "native" then (if cfg.provider = "anthropic" then "xml" else "native")
  else if mode = "xml" then "xml"
  else if cfg.provider = "openai" then "native"
  else "xml"

/-- One replacement step of `xmlEscape` (all patterns are single
characters, so per-character replacement matches `strings.NewReplacer`). -/
def escapeXmlChar (c : Char) : List Char :=
  if c = '&' then "&amp;".data
  else if c = '<' then "&lt;".data
  else if c = '>' then "&gt;".data
  else if c = Char.ofNat 34 then "&quot;".data
  else if c = Char.ofNat 39 then "&apos;".data
  else [c]

/-- `xmlEscape` (tool_calling.go lines 374–383). -/
def xmlEscape (s : String) : String :=
  String.mk (s.data.foldr (fun c acc => escapeXmlChar c ++ acc) [])

/-- `toString` (tool_calling.go lines 385–408).  Strings, booleans and
null carry their Go renderings; the remaining JSON shapes marshal to
text whose exact form no claim depends on. -/
def toStringAny : AnyVal → String
  | AnyVal.str s => s
  | AnyVal.boolv true => "true"
  | AnyVal.boolv false => "false"
  | AnyVal.null => "null"
  | AnyVal.other => "<json>"

/-- `strings.ReplaceAll` (fuelled; every step consumes at least the
pattern). -/
def replaceAllGo : Nat → List Char → List Char → List Char → List Char
  | 0, s, _, _ => s
  | fuel + 1, s, pat, rep =>
      match splitOnSub? s pat with
      | none => s
      | some (before, after) => before ++ rep ++ replaceAllGo fuel after pat rep

/-- Insertion sort on strings (`sort.Strings`). -/
def insertSorted (x : String) : List String → List String
  | [] => [x]
  | y :: rest => if x ≤ y then x :: y :: rest else y :: insertSorted x rest

def sortStrings (l : List String) : List String :=
  l.foldr insertSorted []

/-- `buildToolCallTranscriptXML` (tool_calling.go lines 123–156). -/
def buildToolCallTranscriptXML (calls : List ToolCallX) : String :=
  joinSep "\n" (calls.map fun c =>
    let keys := sortStrings (c.args.map Prod.fst)
    "<tool_call>\n  <name>" ++ xmlEscape (String.mk (trimChars c.name.data))
      ++ "</name>\n  <args>\n"
      ++ joinSep "" (keys.map fun k =>
          let v := toStringAny ((lookupKey c.args k).getD AnyVal.null)
          "    <" ++ xmlEscape k ++ ">"
            ++ (if v.data.any (fun ch => ch = '<' ∨ ch = '>' ∨ ch = '&') then
                  "<![CDATA["
                    ++ String.mk (replaceAllGo (v.data.length + 1) v.data
                        "]]>".data "]]]]><![CDATA[>".data)
                    ++ "]]>"
                else xmlEscape v)
            ++ "</" ++ xmlEscape k ++ ">\n")
      ++ "  </args>\n</tool_call>")

/-- `buildToolResultsTranscript` (tool_calling.go lines 158–169). -/
def buildToolResultsTranscript (results : List ToolResult) : String :=
  if results = [] then ""
  else
    joinSep "\n---\n" (results.map fun r =>
      "STEP: execute_tool\nname: " ++ r.name ++ "\ncall_id: " ++ r.toolCallId
        ++ "\nresult:\n" ++ r.content)

/-- The `json.MarshalIndent(call.Args)` text of the XML-branch result
block, abstracted to a deterministic rendering (its exact spelling is
claim-irrelevant). -/
def renderArgsText (args : List (String × AnyVal)) : String :=
  joinSep "\n" (args.map fun kv => kv.1 ++ ": " ++ toStringAny kv.2)

/-- The Anthropic request shaping (lines 806–824): fold system messages
into one newline-joined system string, keep the rest. -/
def foldAnthropic (msgs : List ChatMsg) : String × List ChatMsg :=
  msgs.foldl
    (fun acc m =>
      if m.role = "system" then (acc.1 ++ m.content ++ "\n", acc.2)
      else (acc.1, acc.2 ++ [m]))
    ("", [])

/-- Native-branch tool dispatch (lines 967–976): run each call in order,
appending one `tool` frame per result and threading the store. -/
def runNativeCalls (env : ToolEnv) (sessionID : String) (planMode : Bool) :
    List ToolCallX → List ChatMsg → Store → (List ToolResult × List ChatMsg × Store)
  | [], msgs, store => ([], msgs, store)
  | call :: rest, msgs, store =>
      let r := executeToolCall env store sessionID call planMode
      let frame : ChatMsg :=
        { role := "tool", content := r.1.content, toolCallId := some r.1.toolCallId }
      let step := runNativeCalls env sessionID planMode rest (msgs ++ [frame]) r.2.2
      (r.1 :: step.1, step.2.1, step.2.2)

/-- XML-branch tool dispatch (lines 1000–1005): one result text per
call. -/
def runXmlCalls (env : ToolEnv) (sessionID : String) (planMode : Bool) :
    List ToolCallX → Store → (List String × Store)
  | [], store => ([], store)
  | call :: rest, store =>
      let r := executeToolCall env store sessionID call planMode
      let text := "STEP: execute_tool\nname: " ++ call.name ++ "\nargs: "
        ++ renderArgsText call.args ++ "\nresult:\n" ++ r.1.content
      let (ts, store'') := runXmlCalls env sessionID planMode rest r.2.2
      (text :: ts, store'')

/-- The turn loop of `callLLMService` (lines 793–1024).  `fuel` counts
the remaining turns (10 at entry), `i` the current turn index used to
consult the oracles.  `responses[i]? = none` models a transport error on
turn `i`; `cancelled i` models `ctx.Done()` observed at the top of turn
`i`.  On a cancelled or failed turn the source returns the error with
the audit turns collected so far. -/
def llmLoop (cfg : CustomLLMService) (model : String) (planMode : Bool)
    (toolMode : String) (responses : List TurnResponse) (cancelled : Nat → Bool)
    (env : ToolEnv) (sessionID : String) :
    Nat → Nat → List ChatMsg → String → List RawTurn → Store →
      Except String String × List RawTurn × Store
  | 0, _, _, builder, rawTurns, store => (.ok builder, rawTurns, store)
  | fuel + 1, i, currentMessages, builder, rawTurns, store =>
      if cancelled i then (.error "context canceled", rawTurns, store)
      else
        match responses[i]? with
        | none => (.error "request failed", rawTurns, store)
        | some resp =>
            let sentMessages :=
              if cfg.provider = "anthropic" then (foldAnthropic currentMessages).2
              else currentMessages
            let turn : RawTurn :=
              { provider := cfg.provider, model := model, url := cfg.baseUrl,
                method := "POST", status := resp.status,
                requestHeaders := sanitizeRequestHeaders (buildRequestHeaders cfg),
                request := sentMessages, response := resp.body }
            let rawTurns := rawTurns ++ [turn]
            if resp.status ≥ 400 then
              (.error ("API request failed with status " ++ Nat.repr resp.status
                ++ ": " ++ resp.body), rawTurns, store)
            else
              let responseText := resp.text
              let nativeToolCalls :=
                if cfg.provider ≠ "anthropic" ∧ toolMode = "native" then resp.toolCalls
                else []
              if responseText = "" ∧ nativeToolCalls = [] then
                (.error ("empty response from service (provider: " ++ cfg.provider ++ ")"),
                  rawTurns, store)
              else
                let builder := if builder ≠ "" then builder ++ "\n\n" else builder
                let builder := if responseText ≠ "" then builder ++ responseText else builder
                if nativeToolCalls ≠ [] then
                  let transcript := buildToolCallTranscriptXML nativeToolCalls
                  let builder :=
                    (if responseText ≠ "" then builder ++ "\n\n" else builder) ++ transcript
                  let currentMessages := currentMessages
                    ++ [{ role := "assistant", content := responseText,
                          toolCallsRaw := nativeToolCalls }]
                  let step :=
                    runNativeCalls env sessionID planMode nativeToolCalls currentMessages store
                  let rt := buildToolResultsTranscript step.1
                  let builder :=
                    if rt ≠ "" then
                      builder ++ "\n\n<tool_results>\n" ++ rt ++ "\n</tool_results>"
                    else builder
                  llmLoop cfg model planMode toolMode responses cancelled env sessionID
                    fuel (i + 1) step.2.1 builder rawTurns step.2.2
                else
                  match parseXMLToolCallsFromText responseText with
                  | .error e => (.error e, rawTurns, store)
                  | .ok [] => (.ok builder, rawTurns, store)
                  | .ok xmlCalls =>
                      let currentMessages := currentMessages
                        ++ [{ role := "assistant", content := responseText }]
                      let step := runXmlCalls env sessionID planMode xmlCalls store
                      let resultsJoined := joinSep "\n---\n" step.1
                      let builder := builder ++ "\n\n<tool_results>\n" ++ resultsJoined
                        ++ "\n</tool_results>"
                      let currentMessages := currentMessages
                        ++ [{ role := "user", content := "Tool Results:\n" ++ resultsJoined
                              ++ "\n\nPlease continue." }]
                      llmLoop cfg model planMode toolMode responses cancelled env sessionID
                        fuel (i + 1) currentMessages builder rawTurns step.2

/-- `callLLMService`: context compression, then at most 10 turns. -/
def callLLMService (cfg : CustomLLMService) (sessionID : String)
    (initialMessages : List ChatMsg) (model : String) (planMode : Bool)
    (responses : List TurnResponse) (cancelled : Nat → Bool) (env : ToolEnv)
    (store : Store) : Except String String × List RawTurn × Store :=
  let currentMessages := prepareMessages initialMessages cfg.contextLimit
  let toolMode := resolveToolCallingMode cfg
  llmLoop cfg model planMode toolMode responses cancelled env sessionID
    10 0 currentMessages "" [] store

/-! ### Tool dispatch never touches stored message lists.

`manage_todo` is the only tool that mutates the session store, and it
only replaces `todos`/`updatedAt`; the conversation frames of every
session are invariant across the whole tool loop.  The C3 atomicity
theorem rests on this. -/

/-- The stored message list of a session, viewed through the store. -/
def msgsAt (store : Store) (k : String) : Option (List StoredMsg) :=
  (lookupKey store k).map (·.messages)

theorem updateSessionTodos_msgsAt (store : Store) (sid : String)
    (todos : List TodoItem) (now : Nat) (st' : Store)
    (h : updateSessionTodos store sid todos now = .ok st') (j : String) :
    msgsAt st' j = msgsAt store j := by
  unfold updateSessionTodos at h
  cases hl : lookupKey store sid with
  | none => rw [hl] at h; exact absurd h (by simp)
  | some s =>
      rw [hl] at h
      injection h with h
      subst h
      unfold msgsAt
      by_cases hj : j = sid
      · subst hj
        rw [lookupKey_upsert_self, hl]
        rfl
      · rw [lookupKey_upsert_other _ _ _ _ hj]

theorem updateTodosGetD_msgsAt (store : Store) (sid : String)
    (todos : List TodoItem) (now : Nat) (j : String) :
    msgsAt ((updateSessionTodos store sid todos now).toOption.getD store) j
      = msgsAt store j := by
  cases h : updateSessionTodos store sid todos now with
  | error e => simp [Except.toOption]
  | ok st' =>
      simpa [Except.toOption] using updateSessionTodos_msgsAt store sid todos now st' h j

theorem manageTodoExec_msgsAt (env : ToolEnv) (store : Store) (sid : String)
    (args : List (String × AnyVal)) (r : String × List ToolEffect × Store)
    (h : manageTodoExec env store sid args = .ok r) (j : String) :
    msgsAt r.2.2 j = msgsAt store j := by
  unfold manageTodoExec at h
  cases hact : requireStringArg args "action" with
  | error e => simp only [hact] at h; exact Except.noConfusion h
  | ok action =>
      simp only [hact] at h
      cases hl : lookupKey store sid with
      | none => simp only [hl] at h; exact Except.noConfusion h
      | some session =>
          simp only [hl] at h
          by_cases ha : action = "add"
          · rw [if_pos ha] at h
            cases hc : requireStringArg args "content" with
            | error e => simp only [hc] at h; exact Except.noConfusion h
            | ok content =>
                simp only [hc] at h
                cases h
                exact updateTodosGetD_msgsAt store sid _ _ j
          · rw [if_neg ha] at h
            by_cases hu : action = "update"
            · rw [if_pos hu] at h
              cases hid : requireStringArg args "id" with
              | error e => simp only [hid] at h; exact Except.noConfusion h
              | ok tid =>
                  simp only [hid] at h
                  by_cases hany : (session.todos.any fun t => t.id == tid) = true
                  · rw [if_pos hany] at h
                    cases h
                    exact updateTodosGetD_msgsAt store sid _ _ j
                  · rw [if_neg hany] at h
                    exact Except.noConfusion h
            · rw [if_neg hu] at h
              by_cases hd : action = "delete"
              · rw [if_pos hd] at h
                cases hid : requireStringArg args "id" with
                | error e => simp only [hid] at h; exact Except.noConfusion h
                | ok tid =>
                    simp only [hid] at h
                    by_cases hany : (session.todos.any fun t => t.id == tid) = true
                    · rw [if_pos hany] at h
                      cases h
                      exact updateTodosGetD_msgsAt store sid _ _ j
                    · rw [if_neg hany] at h
                      exact Except.noConfusion h
              · rw [if_neg hd] at h
                by_cases hli : action = "list"
                · rw [if_pos hli] at h
                  by_cases hemp : session.todos = []
                  · rw [if_pos hemp] at h
                    cases h
                    rfl
                  · rw [if_neg hemp] at h
                    cases h
                    rfl
                · rw [if_neg hli] at h
                  exact Except.noConfusion h

theorem execHandler_msgsAt (env : ToolEnv) (store : Store) (sid name : String)
    (args : List (String × AnyVal)) (r : String × List ToolEffect × Store)
    (h : execHandler env store sid name args = .ok r) (j : String) :
    msgsAt r.2.2 j = msgsAt store j := by
  unfold execHandler at h
  by_cases h1 : name = "search_files"
  · rw [if_pos h1] at h
    cases ha : requireStringArg args "query" with
    | error e => simp only [ha] at h; exact Except.noConfusion h
    | ok q =>
        simp only [ha] at h
        cases hb : env.findFiles q with
        | error e => simp only [hb] at h; exact Except.noConfusion h
        | ok files => simp only [hb] at h; cases h; rfl
  · rw [if_neg h1] at h
    by_cases h2 : name = "read_file"
    · rw [if_pos h2] at h
      cases ha : requireStringArg args "path" with
      | error e => simp only [ha] at h; exact Except.noConfusion h
      | ok p =>
          simp only [ha] at h
          cases hb : env.fileContent p with
          | error e => simp only [hb] at h; exact Except.noConfusion h
          | ok content => simp only [hb] at h; cases h; rfl
    · rw [if_neg h2] at h
      by_cases h3 : name = "list_files"
      · rw [if_pos h3] at h
        cases ha : requireStringArg args "path" with
        | error e => simp only [ha] at h; exact Except.noConfusion h
        | ok p =>
            simp only [ha] at h
            cases hb : env.listFiles p with
            | error e => simp only [hb] at h; exact Except.noConfusion h
            | ok files => simp only [hb] at h; cases h; rfl
      · rw [if_neg h3] at h
        by_cases h4 : name = "run_command"
        · rw [if_pos h4] at h
          cases ha : requireStringArg args "command" with
          | error e => simp only [ha] at h; exact Except.noConfusion h
          | ok c =>
              simp only [ha] at h
              cases hb : env.runCommand c with
              | error e => simp only [hb] at h; exact Except.noConfusion h
              | ok out => simp only [hb] at h; cases h; rfl
        · rw [if_neg h4] at h
          by_cases h5 : name = "save_file"
          · rw [if_pos h5] at h
            cases ha : requireStringArg args "path" with
            | error e => simp only [ha] at h; exact Except.noConfusion h
            | ok p =>
                simp only [ha] at h
                cases hb : requireStringArg args "content" with
                | error e => simp only [hb] at h; exact Except.noConfusion h
                | ok content =>
                    simp only [hb] at h
                    cases hc : env.saveFile p content with
                    | error e => simp only [hc] at h; exact Except.noConfusion h
                    | ok u => simp only [hc] at h; cases h; rfl
          · rw [if_neg h5] at h
            by_cases h6 : name = "git_status"
            · rw [if_pos h6] at h
              cases hb : env.runCommand "git status --short" with
              | error e => simp only [hb] at h; exact Except.noConfusion h
              | ok out => simp only [hb] at h; cases h; rfl
            · rw [if_neg h6] at h
              by_cases h7 : name = "git_diff"
              · rw [if_pos h7] at h
                cases ha : optionalBoolArg args "staged" false with
                | error e => simp only [ha] at h; exact Except.noConfusion h
                | ok staged =>
                    simp only [ha] at h
                    cases hb : env.runCommand (if staged then "git diff --cached" else "git diff") with
                    | error e => simp only [hb] at h; exact Except.noConfusion h
                    | ok out => simp only [hb] at h; cases h; rfl
              · rw [if_neg h7] at h
                by_cases h8 : name = "manage_todo"
                · rw [if_pos h8] at h
                  exact manageTodoExec_msgsAt env store sid args r h j
                · rw [if_neg h8] at h
                  exact Except.noConfusion h

theorem executeToolCall_msgsAt (env : ToolEnv) (store : Store) (sid : String)
    (call : ToolCallX) (planMode : Bool) (j : String) :
    msgsAt (executeToolCall env store sid call planMode).2.2 j = msgsAt store j := by
  unfold executeToolCall
  cases hl : lookupKey toolCatalog call.name with
  | none => simp only [hl]
  | some allowed =>
      simp only [hl]
      by_cases hg : (planMode && !allowed) = true
      · rw [if_pos hg]
      · rw [if_neg hg]
        cases hE : execHandler env store sid call.name call.args with
        | error e => simp only [hE]
        | ok r' =>
            simp only [hE]
            obtain ⟨out, effs, store'⟩ := r'
            exact execHandler_msgsAt env store sid call.name call.args (out, effs, store') hE j

theorem runNativeCalls_msgsAt (env : ToolEnv) (sid : String) (pm : Bool) :
    ∀ (calls : List ToolCallX) (msgs : List ChatMsg) (store : Store) (j : String),
      msgsAt (runNativeCalls env sid pm calls msgs store).2.2 j = msgsAt store j := by
  intro calls
  induction calls with
  | nil => intro msgs store j; rfl
  | cons call rest ih =>
      intro msgs store j
      show msgsAt (runNativeCalls env sid pm (call :: rest) msgs store).2.2 j = _
      rw [runNativeCalls]
      exact (ih _ _ j).trans (executeToolCall_msgsAt env store sid call pm j)

theorem runXmlCalls_msgsAt (env : ToolEnv) (sid : String) (pm : Bool) :
    ∀ (calls : List ToolCallX) (store : Store) (j : String),
      msgsAt (runXmlCalls env sid pm calls store).2 j = msgsAt store j := by
  intro calls
  induction calls with
  | nil => intro store j; rfl
  | cons call rest ih =>
      intro store j
      show msgsAt (runXmlCalls env sid pm (call :: rest) store).2 j = _
      rw [runXmlCalls]
      exact (ih (executeToolCall env store sid call pm).2.2 j).trans
        (executeToolCall_msgsAt env store sid call pm j)

set_option maxHeartbeats 2000000 in
theorem llmLoop_msgsAt (cfg : CustomLLMService) (model : String) (planMode : Bool)
    (toolMode : String) (responses : List TurnResponse) (cancelled : Nat → Bool)
    (env : ToolEnv) (sessionID : String) :
    ∀ (fuel i : Nat) (msgs : List ChatMsg) (builder : String)
      (rawTurns : List RawTurn) (store : Store) (j : String),
      msgsAt (llmLoop cfg model planMode toolMode responses cancelled env sessionID
        fuel i msgs builder rawTurns store).2.2 j = msgsAt store j := by
  intro fuel
  induction fuel with
  | zero => intro i msgs builder rawTurns store j; rfl
  | succ f ih =>
      intro i msgs builder rawTurns store j
      show msgsAt (llmLoop cfg model planMode toolMode responses cancelled env sessionID
        (f + 1) i msgs builder rawTurns store).2.2 j = _
      rw [llmLoop]
      dsimp only []
      repeat' split
      all_goals first
        | rfl
        | exact (ih _ _ _ _ _ j).trans
            (runNativeCalls_msgsAt env sessionID planMode _ _ store j)
        | exact (ih _ _ _ _ _ j).trans
            (runXmlCalls_msgsAt env sessionID planMode _ store j)


theorem callLLMService_msgsAt (cfg : CustomLLMService) (sessionID : String)
    (initialMessages : List ChatMsg) (model : String) (planMode : Bool)
    (responses : List TurnResponse) (cancelled : Nat → Bool) (env : ToolEnv)
    (store : Store) (j : String) :
    msgsAt (callLLMService cfg sessionID initialMessages model planMode responses
      cancelled env store).2.2 j = msgsAt store j :=
  llmLoop_msgsAt cfg model planMode (resolveToolCallingMode cfg) responses cancelled
    env sessionID 10 0 (prepareMessages initialMessages cfg.contextLimit) "" [] store j

/-! ### C3 — `sendLLMMessageInternal` (custom-LLM file lines 354–616). -/

/-- The four system-prompt text constants of `sendLLMMessageInternal`
(lines 409–538).  Their contents are inert data that no claim depends
on; the *selection* logic among them is embedded below. -/
structure PromptTexts where
  xmlBase : String
  nativeBase : String
  planSuffix : String
  actSuffix : String

/-- `normalizeStoredMessage` (lines 56–91) on the typed message shape:
the role from `info`, the text of the first part (empty when there is
none). -/
def normalizeStoredMessage (msg : StoredMsg) : String × String :=
  (msg.info.role, (msg.parts.head?.map (·.text)).getD "")

/-- History conversion plus the current user message (lines 367–387). -/
def assembleChatMessages (session : Session) (message : String) : List ChatMsg :=
  (session.messages.filterMap fun m =>
    let rt := normalizeStoredMessage m
    if trimChars rt.1.data = [] then none
    else some { role := rt.1, content := rt.2 })
    ++ [{ role := "user", content := message }]

/-- The message list handed to `callLLMService`: the converted history,
the current user message, and the prepended system prompt chosen by
dialect and plan mode, with the optional `.openspace/prompt.md` project
context appended (lines 389–545). -/
def promptedMessages (session : Session) (message : String) (cfg : CustomLLMService)
    (prompts : PromptTexts) (projectPrompt : Option String) : List ChatMsg :=
  let messages := assembleChatMessages session message
  let userPrompt :=
    match projectPrompt with
    | none => ""
    | some c => "\n\nProject Context:\n" ++ c
  let base :=
    if resolveToolCallingMode cfg = "native" then prompts.nativeBase else prompts.xmlBase
  let systemPromptContent := base
    ++ (if hasPlanModeTag message then prompts.planSuffix else prompts.actSuffix)
    ++ userPrompt
  ({ role := "system", content := systemPromptContent } : ChatMsg) :: messages

/-- `sendLLMMessageInternal`.  The clock (`now`), the HTTP transport
(`responses`), cancellation and the tool effects are oracles.  The
warning-only file save is not modelled. -/
def sendLLMMessageInternal (store : Store) (sessionID message : String)
    (serviceConfig : CustomLLMService) (modelID : String) (prompts : PromptTexts)
    (projectPrompt : Option String) (now : Nat) (responses : List TurnResponse)
    (cancelled : Nat → Bool) (env : ToolEnv) : Except String StoredMsg × Store :=
  let targetModel := if modelID = "" then serviceConfig.defaultModel else modelID
  match lookupKey store sessionID with
  | none => (.error ("session not found: " ++ sessionID), store)
  | some session =>
      let r := callLLMService serviceConfig sessionID
        (promptedMessages session message serviceConfig prompts projectPrompt)
        targetModel (hasPlanModeTag message) responses cancelled env store
      match r.1 with
      | .error e => (.error e, r.2.2)
      | .ok responseText =>
          let rawTurns := r.2.1
          let store' := r.2.2
          let session' := (lookupKey store' sessionID).getD session
          let userInfo : MsgInfo :=
            { role := "user", createdAt := now, id := "msg_" ++ Nat.repr now,
              rawRequest := rawTurns.head?.map (·.request), rawTurns := rawTurns }
          let userMsg : StoredMsg :=
            { info := userInfo, parts := [{ ptype := "text", text := message }] }
          let assistantInfo : MsgInfo :=
            { role := "assistant", createdAt := now + 100,
              id := "msg_" ++ Nat.repr (now + 100), model := some targetModel,
              service := some serviceConfig.id,
              rawResponse := rawTurns.getLast?.map (·.response), rawTurns := rawTurns }
          let assistantMsg : StoredMsg :=
            { info := assistantInfo,
              parts := [{ ptype := "text", text := responseText, tokenCount := some 0 }] }
          let updated := { session' with
            messages := session'.messages ++ [userMsg, assistantMsg],
            updatedAt := now + 100 }
          (.ok assistantMsg, upsert store' sessionID updated)

/-- C3: within one `sendLLMMessageInternal` call the message append is
atomic.  If the LLM call errors, the error is returned and the session's
stored frames are exactly as before (tool dispatch inside the loop never
touches them).  On success exactly two frames are appended — user then
assistant — with the assistant's `createdAt` equal to the user's plus
100 ms, and `updatedAt` advanced to that value. -/
theorem c3_append_atomic (store : Store) (sessionID message : String)
    (cfg : CustomLLMService) (modelID : String) (prompts : PromptTexts)
    (projectPrompt : Option String) (now : Nat) (responses : List TurnResponse)
    (cancelled : Nat → Bool) (env : ToolEnv) (session : Session)
    (hs : lookupKey store sessionID = some session) :
    (∀ e,
      (callLLMService cfg sessionID
          (promptedMessages session message cfg prompts projectPrompt)
          (if modelID = "" then cfg.defaultModel else modelID)
          (hasPlanModeTag message) responses cancelled env store).1 = .error e →
        (sendLLMMessageInternal store sessionID message cfg modelID prompts
            projectPrompt now responses cancelled env).1 = .error e ∧
          msgsAt (sendLLMMessageInternal store sessionID message cfg modelID prompts
            projectPrompt now responses cancelled env).2 sessionID
            = some session.messages) ∧
      (∀ text,
        (callLLMService cfg sessionID
            (promptedMessages session message cfg prompts projectPrompt)
            (if modelID = "" then cfg.defaultModel else modelID)
            (hasPlanModeTag message) responses cancelled env store).1 = .ok text →
          ∃ sess' u a,
            lookupKey (sendLLMMessageInternal store sessionID message cfg modelID prompts
              projectPrompt now responses cancelled env).2 sessionID = some sess' ∧
            sess'.messages = session.messages ++ [u, a] ∧
            u.info.role = "user" ∧ u.info.createdAt = now ∧
            a.info.role = "assistant" ∧ a.info.createdAt = u.info.createdAt + 100 ∧
            sess'.updatedAt = a.info.createdAt ∧
            (sendLLMMessageInternal store sessionID message cfg modelID prompts
              projectPrompt now responses cancelled env).1 = .ok a) := by
  have hbase : msgsAt store sessionID = some session.messages := by
    unfold msgsAt
    rw [hs]
    rfl
  have hloop := callLLMService_msgsAt cfg sessionID
    (promptedMessages session message cfg prompts projectPrompt)
    (if modelID = "" then cfg.defaultModel else modelID)
    (hasPlanModeTag message) responses cancelled env store sessionID
  constructor
  · intro e he
    unfold sendLLMMessageInternal
    simp only [hs]
    rw [he]
    exact ⟨rfl, hloop.trans hbase⟩
  · intro text hok
    have hmsgs : msgsAt (callLLMService cfg sessionID
        (promptedMessages session message cfg prompts projectPrompt)
        (if modelID = "" then cfg.defaultModel else modelID)
        (hasPlanModeTag message) responses cancelled env store).2.2 sessionID
        = some session.messages := hloop.trans hbase
    unfold sendLLMMessageInternal
    simp only [hs]
    rw [hok]
    unfold msgsAt at hmsgs
    cases hl : lookupKey (callLLMService cfg sessionID
        (promptedMessages session message cfg prompts projectPrompt)
        (if modelID = "" then cfg.defaultModel else modelID)
        (hasPlanModeTag message) responses cancelled env store).2.2 sessionID with
    | none => rw [hl] at hmsgs; exact absurd hmsgs (by simp)
    | some s'' =>
        rw [hl] at hmsgs
        simp only [Option.map_some'] at hmsgs
        injection hmsgs with hmsgs
        simp only [hl, Option.getD_some]
        exact ⟨_, _, _, lookupKey_upsert_self _ _ _,
          by rw [hmsgs], rfl, rfl, rfl, rfl, rfl, rfl⟩

def c3Session : Session :=
  { id := "s", title := "T", createdAt := 1, updatedAt := 1, messages := [] }

def c3Store : Store := [("s", c3Session)]

def promptsW : PromptTexts :=
  { xmlBase := "", nativeBase := "", planSuffix := "", actSuffix := "" }

def c3Cfg : CustomLLMService :=
  { id := "svc", name := "Svc", baseUrl := "http://x", provider := "other",
    defaultModel := "m", enabled := true }

def c3RespOk : List TurnResponse := [{ status := 200, body := "b", text := "hello" }]

/-- C3, witness: a transport failure on the first turn leaves the stored
frames untouched, and a successful one-turn reply appends exactly the
user/assistant pair with the +100 ms timestamps. -/
theorem c3_append_atomic_witness :
    ((sendLLMMessageInternal c3Store "s" "hi" c3Cfg "" promptsW none 1000 []
        (fun _ => false) c7Env).1 = .error "request failed" ∧
      msgsAt (sendLLMMessageInternal c3Store "s" "hi" c3Cfg "" promptsW none 1000 []
        (fun _ => false) c7Env).2 "s" = some c3Session.messages) ∧
      (∃ sess' u a,
        lookupKey (sendLLMMessageInternal c3Store "s" "hi" c3Cfg "" promptsW none 1000
          c3RespOk (fun _ => false) c7Env).2 "s" = some sess' ∧
        sess'.messages = c3Session.messages ++ [u, a] ∧
        u.info.role = "user" ∧ u.info.createdAt = 1000 ∧
        a.info.role = "assistant" ∧ a.info.createdAt = u.info.createdAt + 100 ∧
        sess'.updatedAt = a.info.createdAt ∧
        (sendLLMMessageInternal c3Store "s" "hi" c3Cfg "" promptsW none 1000 c3RespOk
          (fun _ => false) c7Env).1 = .ok a) := by
  constructor
  · exact (c3_append_atomic c3Store "s" "hi" c3Cfg "" promptsW none 1000 []
      (fun _ => false) c7Env c3Session (by decide)).1 "request failed" rfl
  · exact (c3_append_atomic c3Store "s" "hi" c3Cfg "" promptsW none 1000 c3RespOk
      (fun _ => false) c7Env c3Session (by decide)).2 "hello" rfl

/-! ### C4 / C10 — `SummarizeSession` (service.go lines 1512–1621). -/

/-- The explicit-providerID pass (lines 1525–1536): first entry whose
`id` field equals the given provider id — with no enabled check. -/
def findByIdPass : List SvcEntry → String → Option SvcEntry
  | [], _ => none
  | s :: rest, pid => if s.id.getD "" = pid then some s else findByIdPass rest pid

/-- The fallback pass (lines 1539–1551): first entry not explicitly
disabled. -/
def findEnabledPass : List SvcEntry → Option SvcEntry
  | [] => none
  | s :: rest => if s.enabled = some false then findEnabledPass rest else some s

/-- The service selection of `SummarizeSession`. -/
def selectSummaryService (services : List SvcEntry) (pid : String) :
    Option CustomLLMService :=
  match (if pid ≠ "" then findByIdPass services pid else none) with
  | some e => some e.decode
  | none => (findEnabledPass services).map SvcEntry.decode

def summaryRequestText : String :=
  "Please provide a concise summary of the above conversation. Focus on the main topics discussed and any decisions made."

/-- The message assembly of `SummarizeSession` (lines 1560–1587): the
last 50 stored messages as `role`/`content` records plus the final
summary request. -/
def summaryMessages (session : Session) : List ChatMsg :=
  let msgs :=
    if session.messages.length > 50 then
      session.messages.drop (session.messages.length - 50)
    else session.messages
  (msgs.filterMap fun m =>
    let rt := normalizeStoredMessage m
    if trimChars rt.1.data = [] then none
    else some { role := rt.1, content := rt.2 })
    ++ [{ role := "user", content := summaryRequestText }]

structure SummaryResult where
  summary : String
  messageCount : Nat
  provider : String
  model : String
deriving DecidableEq

/-- A single-quote character, kept out of string literals. -/
def sq : String := String.singleton (Char.ofNat 39)

/-- The count-only fallback summary (lines 1611–1620). -/
def fallbackSummary (session : Session) (providerID modelID : String) : SummaryResult :=
  { summary := "Session " ++ sq ++ session.title ++ sq ++ " contains "
      ++ Nat.repr session.messages.length ++ " messages. (LLM summary unavailable)",
    messageCount := session.messages.length, provider := providerID, model := modelID }

/-- `SummarizeSession`.  Note that the LLM call goes through the same
tool-loop `callLLMService` used by `sendLLMMessageInternal`, with plan
mode enabled (the literal `true` argument at line 1590). -/
def summarizeSession (store : Store) (customServices : List SvcEntry)
    (sessionID providerID modelID : String) (responses : List TurnResponse)
    (cancelled : Nat → Bool) (env : ToolEnv) : Except String SummaryResult × Store :=
  match lookupKey store sessionID with
  | none => (.error ("session not found: " ++ sessionID), store)
  | some session =>
      let found :=
        if customServices ≠ [] then selectSummaryService customServices providerID
        else none
      match found with
      | some serviceConfig =>
          let model := if modelID = "" then serviceConfig.defaultModel else modelID
          let r := callLLMService serviceConfig sessionID (summaryMessages session)
            model true responses cancelled env store
          match r.1 with
          | .ok summary =>
              let store' := r.2.2
              let session' := (lookupKey store' sessionID).getD session
              let store'' := upsert store' sessionID { session' with summary := summary }
              let res : SummaryResult :=
                { summary := summary, messageCount := session.messages.length,
                  provider := serviceConfig.id, model := model }
              (.ok res, store'')
          | .error _ => (.ok (fallbackSummary session providerID modelID), r.2.2)
      | none => (.ok (fallbackSummary session providerID modelID), store)

/-- C10: the explicit-providerID pass matches on `id` alone — no enabled
check — while the fallback pass is exactly "first entry not explicitly
disabled"; an entry found by id is selected (and then called) even when
`enabled == false`. -/
theorem c10_selection_ignores_enabled (services : List SvcEntry) (pid : String) :
    (findByIdPass services pid
        = services.find? fun s => decide (s.id.getD "" = pid)) ∧
      (findEnabledPass services
        = services.find? fun s => !(s.enabled == some false)) ∧
      (∀ s, pid ≠ "" → findByIdPass services pid = some s →
        selectSummaryService services pid = some s.decode) := by
  refine ⟨?_, ?_, ?_⟩
  · induction services with
    | nil => rfl
    | cons s rest ih =>
        by_cases h : s.id.getD "" = pid
        · rw [findByIdPass, if_pos h, List.find?_cons_of_pos _ (by simp [h])]
        · rw [findByIdPass, if_neg h, List.find?_cons_of_neg _ (by simp [h]), ih]
  · induction services with
    | nil => rfl
    | cons s rest ih =>
        by_cases h : s.enabled = some false
        · rw [findEnabledPass, if_pos h, List.find?_cons_of_neg _ (by simp [h]), ih]
        · rw [findEnabledPass, if_neg h, List.find?_cons_of_pos _ (by
            simp only [Bool.not_eq_true', beq_eq_false_iff_ne, ne_eq]
            exact h)]
  · intro s hpid hfind
    unfold selectSummaryService
    rw [if_pos hpid, hfind]

def c10Svc : SvcEntry :=
  { id := some "p", name := some "P", baseUrl := some "http://x",
    enabled := some false, defaultModel := some "m" }

/-- C10, witness: a service named explicitly by providerId is selected
although its enabled flag is false. -/
theorem c10_selection_ignores_enabled_witness :
    c10Svc.enabled = some false ∧
      selectSummaryService [c10Svc] "p" = some c10Svc.decode := by
  refine ⟨rfl, ?_⟩
  exact (c10_selection_ignores_enabled [c10Svc] "p").2.2 c10Svc (by decide) (by decide)

def c4Svc : SvcEntry :=
  { id := some "svc", name := some "S", baseUrl := some "http://x",
    enabled := some true, provider := some "other", defaultModel := some "m" }

def c4Session : Session :=
  { id := "s1", title := "T", createdAt := 1, updatedAt := 1, messages := [] }

def c4Store : Store := [("s1", c4Session)]

def c4RespTool : List TurnResponse :=
  [{ status := 200, body := "b1",
     text := "<tool_call><name>git_status</name><args></args></tool_call>" },
   { status := 200, body := "b2", text := "final summary" }]

/-- The summary text `SummarizeSession` produces in the two-turn
scenario (empty on error). -/
def c4SummaryText : String :=
  match (summarizeSession c4Store [c4Svc] "s1" "svc" "m" c4RespTool
      (fun _ => false) c7Env).1 with
  | .ok r => r.summary
  | .error _ => ""

/-- C4, counterexample.  With a first reply containing an XML tool call,
the LLM call that `SummarizeSession` issues performs *two* provider
round-trips (rawTurns length 2) — dispatching `git_status` in between —
and the stored/returned summary carries the tool-results transcript: the
call is neither one-shot nor tool-free. -/
theorem c4_summarize_runs_tool_loop :
    (callLLMService (SvcEntry.decode c4Svc) "s1" (summaryMessages c4Session) "m" true
        c4RespTool (fun _ => false) c7Env c4Store).2.1.length = 2 ∧
      containsSub c4SummaryText.data "<tool_results>".data = true ∧
      c4SummaryText ≠ "final summary" := by
  refine ⟨by decide, by decide, by decide⟩

/-- C4, amended: `SummarizeSession` assembles the last 50 stored
messages as role/content records plus a final user message requesting a
concise summary, then calls the shared tool-loop `callLLMService` with
plan mode enabled (so tool calls in a reply are dispatched, up to 10
turns); on success it stores the final text into `session.summary` and
returns it with the full message count, the service id and the model. -/
theorem c4_summarize_amended (store : Store) (customServices : List SvcEntry)
    (sessionID providerID modelID : String) (responses : List TurnResponse)
    (cancelled : Nat → Bool) (env : ToolEnv) (session : Session)
    (cfgS : CustomLLMService) (text : String)
    (hs : lookupKey store sessionID = some session)
    (hne : customServices ≠ [])
    (hsel : selectSummaryService customServices providerID = some cfgS)
    (hok : (callLLMService cfgS sessionID (summaryMessages session)
        (if modelID = "" then cfgS.defaultModel else modelID) true responses
        cancelled env store).1 = .ok text) :
    (summarizeSession store customServices sessionID providerID modelID responses
        cancelled env).1
        = .ok { summary := text, messageCount := session.messages.length,
                provider := cfgS.id,
                model := if modelID = "" then cfgS.defaultModel else modelID } ∧
      ∃ sess',
        lookupKey (summarizeSession store customServices sessionID providerID modelID
          responses cancelled env).2 sessionID = some sess' ∧
        sess'.summary = text := by
  unfold summarizeSession
  simp only [hs]
  simp only [if_pos hne, hsel]
  rw [hok]
  exact ⟨rfl, _, lookupKey_upsert_self _ _ _, rfl⟩

def c4RespOk : List TurnResponse := [{ status := 200, body := "b", text := "a summary" }]

/-- C4, witness for the amended theorem: a benign single reply is stored
into `session.summary` and returned. -/
theorem c4_summarize_amended_witness :
    (summarizeSession c4Store [c4Svc] "s1" "svc" "m" c4RespOk (fun _ => false) c7Env).1
        = .ok { summary := "a summary", messageCount := 0, provider := "svc",
                model := "m" } ∧
      ∃ sess',
        lookupKey (summarizeSession c4Store [c4Svc] "s1" "svc" "m" c4RespOk
          (fun _ => false) c7Env).2 "s1" = some sess' ∧
        sess'.summary = "a summary" := by
  have h := c4_summarize_amended c4Store [c4Svc] "s1" "svc" "m" c4RespOk
    (fun _ => false) c7Env c4Session (SvcEntry.decode c4Svc) "a summary"
    (by decide) (by decide) (by decide) rfl
  exact h

/-! ### C5, counterexample — an API key echoed in a custom non-sensitive
header survives sanitization into the persisted audit turn. -/

def c5Cfg : CustomLLMService :=
  { id := "svc", name := "S", baseUrl := "http://x", apiKey := "sk-secret-123",
    authType := "bearer", provider := "openai", toolCalling := "xml",
    headers := [("X-Extra", "sk-secret-123")], defaultModel := "m", enabled := true }

def c5Turns : List RawTurn :=
  (callLLMService c5Cfg "s" [{ role := "user", content := "hi" }] "m" false
    [{ status := 200, body := "b", text := "ok" }] (fun _ => false) c7Env []).2.1

/-- C5, counterexample.  The configuration copies the service's API key
into the custom header `X-Extra`.  The raw turn persisted by the call
carries that key verbatim in its sanitized `requestHeaders` (so the
stored header string contains a substring equal to an API key of the
configuration), while the `Authorization` header *is* redacted. -/
theorem c5_custom_header_carries_key :
    c5Turns.length = 1 ∧
      (c5Turns.head?.map fun t =>
        decide (("X-Extra", ["sk-secret-123"]) ∈ t.requestHeaders)) = some true ∧
      (c5Turns.head?.map fun t => lookupKey t.requestHeaders "Authorization")
        = some (some ["Bearer <redacted>"]) := by
  refine ⟨by decide, by decide, by decide⟩

end OpenSpace
